import Mathlib

/-!
# Verification of the uni-git pagination / retry / error-normalization core

Shallow embedding of the TypeScript sources of the `uni-git` repository
(`@uni-git/core`, `@uni-git/provider-github`, `@uni-git/provider-gitlab`,
`@uni-git/provider-bitbucket`, `@uni-git/unified`).

Conventions of the embedding:
* JavaScript numbers used as counts are modelled as `Nat`; backoff delays as `ℚ`.
* `x || default` on a numeric option is modelled by `jsOrNat` (0 is falsy);
  `x || default` on a string by `jsOrStr` (`""` is falsy).
* `maxItems = options?.maxItems || Infinity` is modelled as an `Option Nat`
  cap where `none` stands for `Infinity`.
* A platform's paginated endpoint is modelled as the full (finite) list of
  items the platform would serve for the given query; page `p` of size `k`
  is the slice `(items.drop ((p-1)*k)).take k`, and a cursor/`next` link is
  present exactly when items remain after the current page.
* Thrown JavaScript values are modelled by the `TransportErr` structure
  (field absence = `none`); fallible operations return `Except`.
-/

namespace UniGit

/-- JS `n || d` for a possibly-absent number: `undefined` and `0` are falsy. -/
def jsOrNat (v : Option Nat) (d : Nat) : Nat :=
  match v with
  | none => d
  | some 0 => d
  | some n => n

/-- JS `s || d` for a possibly-absent string: `undefined` and `""` are falsy. -/
def jsOrStr (v : Option String) (d : String) : String :=
  match v with
  | none => d
  | some s => if s = "" then d else s

/-- JS `s.includes(sub)` : substring containment test. -/
def jsIncludes (s sub : String) : Bool :=
  decide (sub.data <:+: s.data)

/-- The `maxItems` cap: `none` models `Infinity` (unbounded). -/
abbrev Cap := Option Nat

/-- `acc.length < maxItems` where the cap may be `Infinity`. -/
def capLt (n : Nat) (cap : Cap) : Bool :=
  match cap with
  | none => true
  | some m => n < m

/-- `min cap n` with an `Infinity`-able cap. -/
def capMin (cap : Cap) (n : Nat) : Nat :=
  match cap with
  | none => n
  | some m => min m n

/-- `options?.maxItems || Infinity`: a `maxItems` of `0` is falsy, hence unbounded. -/
def jsCap (v : Option Nat) : Cap :=
  match v with
  | none => none
  | some 0 => none
  | some n => some n

/-! ## Core data model (`@uni-git/core` `types.ts`) -/

/-- `PaginationOptions` from `@uni-git/core`. -/
structure PaginationOptions where
  perPage : Option Nat := none
  maxItems : Option Nat := none

/-- Unified repository record from `@uni-git/core`. -/
structure Repo where
  id : String
  name : String
  fullName : String
  description : Option String
  defaultBranch : String
  isPrivate : Bool
  webUrl : Option String
  sshUrl : Option String
  httpUrl : Option String
deriving DecidableEq, Repr

/-- Unified organization/group/workspace record from `@uni-git/core`. -/
structure Organization where
  id : String
  name : String
  displayName : Option String
  description : Option String
  webUrl : Option String
  role : Option String
deriving DecidableEq, Repr

/-! ## Transport errors

A thrown JavaScript value as seen by the provider error mappers.  The mappers
probe for a `status` field directly on the error, nested under `response`,
nested under `cause`, and fall back to `instanceof Error` message heuristics;
each probe is modelled by an `Option` field (`none` = field absent). -/

/-- The `response` property some SDK errors carry. -/
structure ResponseField where
  status : Option Int := none
  statusText : Option String := none
deriving DecidableEq, Repr

/-- The `cause` property GitBeaker errors carry. -/
structure CauseField where
  status : Option Int := none
  message : Option String := none
deriving DecidableEq, Repr

/-- A thrown JavaScript value, as probed by the error mappers.
`isObject` models `typeof e === "object" && e !== null`; `isErrorInstance`
models `e instanceof Error` (which implies `isObject` in JS). -/
structure TransportErr where
  isObject : Bool := true
  status : Option Int := none
  response : Option ResponseField := none
  cause : Option CauseField := none
  isErrorInstance : Bool := false
  message : String := ""
deriving DecidableEq, Repr

/-- A plain `new Error(msg)` value (no status anywhere). -/
def jsError (msg : String) : TransportErr :=
  { isObject := true, isErrorInstance := true, message := msg }

/-! ## Domain error taxonomy (`@uni-git/core` `errors.ts`) -/

/-- The closed set of domain errors; each mapper output carries its
human-readable message, and the original transport error as `cause`. -/
inductive DomainError where
  | authError (message : String) (cause : TransportErr)
  | notFoundError (message : String) (cause : TransportErr)
  | rateLimitError (cause : TransportErr)
  | networkError (message : String) (cause : TransportErr)
  | configurationError (message : String)
deriving DecidableEq, Repr

/-- The five domain error kinds. -/
inductive DomainKind where
  | auth | notFound | rateLimit | network | configuration
deriving DecidableEq, Repr

/-- Kind of a domain error. -/
def DomainError.kind : DomainError → DomainKind
  | .authError _ _ => .auth
  | .notFoundError _ _ => .notFound
  | .rateLimitError _ => .rateLimit
  | .networkError _ _ => .network
  | .configurationError _ => .configuration

/-- JS `m || d` on a plain string variable (`""` is falsy). -/
def jsStrOr (m d : String) : String :=
  if m = "" then d else m

/-! ## Provider error mappers

Each mapper is a direct translation of the corresponding `mapXxxError`
function; the nested `if`/`switch` fallthrough of the source is split into
one helper per branch. -/

/-- The `switch (status)` of `mapGitHubError` (direct-status branch). -/
def githubStatusSwitch (status : Int) (message : String) (e : TransportErr) : DomainError :=
  if status = 401 then .authError "GitHub authentication failed" e
  else if status = 403 then .authError "GitHub authorization failed" e
  else if status = 404 then .notFoundError "Repository not found" e
  else if status = 429 then .rateLimitError e
  else if status = 502 ∨ status = 503 ∨ status = 504 then
    .networkError "GitHub service temporarily unavailable" e
  else if status ≥ 500 then .networkError ("GitHub server error: " ++ message) e
  else .networkError ("GitHub API error: " ++ message) e

/-- `mapGitHubError` from `@uni-git/provider-github`: only a direct `status`
field is probed; any other `Error` becomes a `NetworkError`. -/
def mapGitHubError (e : TransportErr) : DomainError :=
  match e.isObject, e.status with
  | true, some status => githubStatusSwitch status (jsStrOr e.message "GitHub API error") e
  | _, _ =>
    if e.isErrorInstance then .networkError ("GitHub request failed: " ++ e.message) e
    else .networkError "Unknown GitHub error" e

/-- The `switch (status)` shared by the cause-status and direct-status
branches of `mapGitLabError` (no 502/503/504 special case). -/
def gitlabStatusSwitch (status : Int) (message : String) (e : TransportErr) : DomainError :=
  if status = 401 then .authError "GitLab authentication failed" e
  else if status = 403 then .authError "GitLab authorization failed" e
  else if status = 404 then .notFoundError "Repository not found" e
  else if status = 429 then .rateLimitError e
  else if status ≥ 500 then .networkError ("GitLab server error: " ++ message) e
  else .networkError ("GitLab API error: " ++ message) e

/-- The `switch (response?.status)` of `mapGitLabError`: committed to as soon
as a `response` property exists, even when `response.status` is absent
(`undefined` falls into the default branch, where `undefined >= 500` is
false). -/
def gitlabResponseSwitch (status : Option Int) (message : String) (e : TransportErr) : DomainError :=
  match status with
  | some s =>
    if s = 401 then .authError "GitLab authentication failed" e
    else if s = 403 then .authError "GitLab authorization failed" e
    else if s = 404 then .notFoundError "Repository not found" e
    else if s = 429 then .rateLimitError e
    else if s = 502 ∨ s = 503 ∨ s = 504 then
      .networkError "GitLab service temporarily unavailable" e
    else if s ≥ 500 then .networkError ("GitLab server error: " ++ message) e
    else .networkError ("GitLab API error: " ++ message) e
  | none => .networkError ("GitLab API error: " ++ message) e

/-- The `error instanceof Error` message-heuristic tail of `mapGitLabError`. -/
def gitlabMessageFallback (e : TransportErr) : DomainError :=
  if e.isErrorInstance then
    if jsIncludes e.message "Unauthorized" || jsIncludes e.message "401" then
      .authError "GitLab authentication failed" e
    else if jsIncludes e.message "Not Found" || jsIncludes e.message "404" then
      .notFoundError "Repository not found" e
    else if jsIncludes e.message "Rate limit" || jsIncludes e.message "429" then
      .rateLimitError e
    else .networkError ("GitLab request failed: " ++ e.message) e
  else .networkError "Unknown GitLab error" e

/-- `mapGitLabError` after the cause-status branch failed to match:
`response` probe, then direct `status` probe, then message heuristics. -/
def gitlabAfterCause (e : TransportErr) : DomainError :=
  match e.response with
  | some r => gitlabResponseSwitch r.status (jsOrStr r.statusText "GitLab API error") e
  | none =>
    match e.status with
    | some status => gitlabStatusSwitch status (jsStrOr e.message "GitLab API error") e
    | none => gitlabMessageFallback e

/-- `mapGitLabError` from `@uni-git/provider-gitlab`: probes, in source
order, `error.cause.status`, then `error.response`, then `error.status`,
then message substrings. -/
def mapGitLabError (e : TransportErr) : DomainError :=
  if e.isObject then
    match e.cause with
    | some c =>
      match c.status with
      | some status => gitlabStatusSwitch status (jsOrStr c.message "GitLab API error") e
      | none => gitlabAfterCause e
    | none => gitlabAfterCause e
  else gitlabMessageFallback e

/-- The `switch (status)` of `mapBitbucketError` (direct-status branch). -/
def bitbucketStatusSwitch (status : Int) (message : String) (e : TransportErr) : DomainError :=
  if status = 401 then .authError "Bitbucket authentication failed" e
  else if status = 403 then .authError "Bitbucket authorization failed" e
  else if status = 404 then .notFoundError "Repository not found" e
  else if status = 429 then .rateLimitError e
  else if status = 502 ∨ status = 503 ∨ status = 504 then
    .networkError "Bitbucket service temporarily unavailable" e
  else if status ≥ 500 then .networkError ("Bitbucket server error: " ++ message) e
  else .networkError ("Bitbucket API error: " ++ message) e

/-- The `switch (response?.status)` of `mapBitbucketError` (no 502/503/504
special case; absent status falls to the default branch). -/
def bitbucketResponseSwitch (status : Option Int) (message : String) (e : TransportErr) : DomainError :=
  match status with
  | some s =>
    if s = 401 then .authError "Bitbucket authentication failed" e
    else if s = 403 then .authError "Bitbucket authorization failed" e
    else if s = 404 then .notFoundError "Repository not found" e
    else if s = 429 then .rateLimitError e
    else if s ≥ 500 then .networkError ("Bitbucket server error: " ++ message) e
    else .networkError ("Bitbucket API error: " ++ message) e
  | none => .networkError ("Bitbucket API error: " ++ message) e

/-- `mapBitbucketError` from `@uni-git/provider-bitbucket`: probes a direct
`status` field, then a `response` wrapper; no cause probe and no message
heuristics. -/
def mapBitbucketError (e : TransportErr) : DomainError :=
  if e.isObject then
    match e.status with
    | some status => bitbucketStatusSwitch status (jsStrOr e.message "Bitbucket API error") e
    | none =>
      match e.response with
      | some r => bitbucketResponseSwitch r.status (jsOrStr r.statusText "Bitbucket API error") e
      | none =>
        if e.isErrorInstance then .networkError ("Bitbucket request failed: " ++ e.message) e
        else .networkError "Unknown Bitbucket error" e
  else
    if e.isErrorInstance then .networkError ("Bitbucket request failed: " ++ e.message) e
    else .networkError "Unknown Bitbucket error" e

/-! ## Retry engine (`@uni-git/core` `utils.ts`, `withRetry`)

`withRetry` runs `fn` up to `maxRetries + 1` times (`for (attempt = 0;
attempt <= maxRetries; attempt++)`).  On failure it rethrows immediately when
`attempt === maxRetries` or `!shouldRetry(error)`; otherwise it sleeps
`min(baseDelayMs * 2^attempt, maxDelayMs)`, scaled by `0.5 + Math.random()*0.5`
when `jitter` is on, and retries.

The embedding is pure: the operation is a function from the attempt index to
its outcome, `Math.random()` is an oracle `rand : Nat → ℚ` giving the sample
drawn before each retry, and the model returns the final outcome together
with the number of executions of `fn` and the list of slept delays.  The
recursion is driven by a fuel argument that equals `maxRetries - attempt`;
the fuel-exhausted branch is unreachable because the loop rethrows at
`attempt = maxRetries` before consuming fuel. -/

/-- The default `shouldRetry` policy of `withRetry`: retry on status ≥ 500 or
status 429; retry anything without a recognizable `status` field. -/
def defaultShouldRetry (e : TransportErr) : Bool :=
  match e.status with
  | some status => status ≥ 500 || status == 429
  | none => true

/-- One state of the `withRetry` loop: current `attempt` index and remaining
fuel (`maxRetries - attempt`). Returns (outcome, executions of `fn`, delays slept). -/
def withRetryGo (fn : Nat → Except E A) (maxRetries : Nat) (shouldRetry : E → Bool)
    (baseDelayMs maxDelayMs : ℚ) (jitter : Bool) (rand : Nat → ℚ) :
    Nat → Nat → Except E A × Nat × List ℚ
  | attempt, fuel =>
    match fn attempt with
    | Except.ok v => (Except.ok v, 1, [])
    | Except.error e =>
      if attempt = maxRetries ∨ shouldRetry e = false then
        (Except.error e, 1, [])
      else
        let delay := min (baseDelayMs * 2 ^ attempt) maxDelayMs
        let delay := if jitter then delay * (1/2 + rand attempt * (1/2)) else delay
        match fuel with
        | 0 => (Except.error e, 1, [])
        | Nat.succ fuel =>
          let rest := withRetryGo fn maxRetries shouldRetry baseDelayMs maxDelayMs jitter rand
            (attempt + 1) fuel
          (rest.1, rest.2.1 + 1, delay :: rest.2.2)

/-- `withRetry` from `@uni-git/core` (defaults: `maxRetries = 3`,
`baseDelayMs = 1000`, `maxDelayMs = 10000`, `jitter = true`). -/
def withRetry (fn : Nat → Except E A) (maxRetries : Nat := 3) (baseDelayMs : ℚ := 1000)
    (maxDelayMs : ℚ := 10000) (jitter : Bool := true) (shouldRetry : E → Bool)
    (rand : Nat → ℚ) : Except E A × Nat × List ℚ :=
  withRetryGo fn maxRetries shouldRetry baseDelayMs maxDelayMs jitter rand 0 maxRetries

/-- The delay slept before retrying attempt `k`:
`min(baseDelayMs * 2^k, maxDelayMs)`, jitter-scaled by
`0.5 + rand(k) * 0.5` when jitter is on. -/
def retryDelay (baseDelayMs maxDelayMs : ℚ) (jitter : Bool) (rand : Nat → ℚ) (k : Nat) : ℚ :=
  let delay := min (baseDelayMs * 2 ^ k) maxDelayMs
  if jitter then delay * (1/2 + rand k * (1/2)) else delay

/-! ## Raw platform payloads and their DTO mappings

One structure per vendor response shape, with the fields the adapters read
(absent/null JSON fields are `none`). -/

/-- JS truthiness filter on an optional string: `undefined`, `null` and `""`
are falsy. -/
def jsTruthyOpt (v : Option String) : Option String :=
  match v with
  | none => none
  | some s => if s = "" then none else some s

/-- A GitLab project as returned by `Projects.all` / `Groups.allProjects`. -/
structure GitLabProject where
  id : Nat
  name : String
  path_with_namespace : String
  description : Option String := none
  default_branch : Option String := none
  visibility : String
  web_url : String
  ssh_url_to_repo : Option String := none
  http_url_to_repo : Option String := none
deriving DecidableEq, Repr

/-- The GitLab project → `Repo` field mapping used by every GitLab list and
metadata operation. -/
def gitlabProjectToRepo (project : GitLabProject) : Repo :=
  { id := toString project.id
    name := project.name
    fullName := project.path_with_namespace
    description := project.description
    defaultBranch := jsOrStr project.default_branch "main"
    isPrivate := project.visibility != "public"
    webUrl := some project.web_url
    sshUrl := project.ssh_url_to_repo
    httpUrl := project.http_url_to_repo }

/-- A GitLab group as returned by `Groups.all`. -/
structure GitLabGroup where
  id : Nat
  name : String
  path : String
  description : Option String := none
  web_url : String
deriving DecidableEq, Repr

/-- The GitLab group → `Organization` mapping of `getOrganizations`. -/
def gitlabGroupToOrganization (group : GitLabGroup) : Organization :=
  { id := toString group.id
    name := group.path
    displayName := some group.name
    description := group.description
    webUrl := some group.web_url
    role := some "member" }

/-- A GitHub repository as returned by `repos.get` /
`repos.listForAuthenticatedUser`. -/
structure GitHubRawRepo where
  id : Nat
  name : String
  full_name : String
  description : Option String := none
  default_branch : String
  private_ : Bool
  html_url : String
  ssh_url : Option String := none
  clone_url : Option String := none
deriving DecidableEq, Repr

/-- The GitHub repo → `Repo` mapping (spread-if-truthy fields are dropped
when falsy). -/
def githubRawToRepo (data : GitHubRawRepo) : Repo :=
  { id := toString data.id
    name := data.name
    fullName := data.full_name
    description := jsTruthyOpt data.description
    defaultBranch := data.default_branch
    isPrivate := data.private_
    webUrl := some data.html_url
    sshUrl := jsTruthyOpt data.ssh_url
    httpUrl := jsTruthyOpt data.clone_url }

/-- A Bitbucket repository as returned by `repositories.get` /
`repositories.list` / `projects.repositories`.  The `links` tree is
flattened to the three hrefs the adapter extracts; `id` is the self-hosted
fallback identifier read by `projects.repositories` rows. -/
structure BitbucketRawRepo where
  uuid : String
  id : String := ""
  name : String
  full_name : String
  description : Option String := none
  mainbranch_name : Option String := none
  is_private : Option Bool := none
  links_html_href : Option String := none
  links_clone_ssh_href : Option String := none
  links_clone_https_href : Option String := none
deriving DecidableEq, Repr

/-- The Bitbucket repo → `Repo` mapping used by the Cloud branches. -/
def bitbucketRawToRepo (repo : BitbucketRawRepo) : Repo :=
  { id := repo.uuid
    name := repo.name
    fullName := repo.full_name
    description := repo.description
    defaultBranch := jsOrStr repo.mainbranch_name "main"
    isPrivate := repo.is_private.getD false
    webUrl := repo.links_html_href
    sshUrl := repo.links_clone_ssh_href
    httpUrl := repo.links_clone_https_href }

/-- The Bitbucket repo → `Repo` mapping of the self-hosted
`projects.repositories` branch (`uuid || id`, `full_name ||
org/name` fallbacks). -/
def bitbucketProjectRepoToRepo (organizationName : String) (repo : BitbucketRawRepo) : Repo :=
  { bitbucketRawToRepo repo with
    id := jsStrOr repo.uuid repo.id
    fullName := jsStrOr repo.full_name (organizationName ++ "/" ++ repo.name) }

/-- A Bitbucket Cloud workspace as returned by `workspaces.getWorkspaces`. -/
structure BitbucketWorkspace where
  uuid : String
  slug : String
  name : String
  links_html_href : Option String := none
deriving DecidableEq, Repr

/-- The workspace → `Organization` mapping of the Cloud `getOrganizations`. -/
def bitbucketWorkspaceToOrganization (workspace : BitbucketWorkspace) : Organization :=
  { id := workspace.uuid
    name := workspace.slug
    displayName := some workspace.name
    description := none
    webUrl := workspace.links_html_href
    role := some "member" }

/-- A Bitbucket Server project as returned by `projects.list`. -/
structure BitbucketProject where
  uuid : String
  key : String
  name : String
  description : Option String := none
  links_html_href : Option String := none
deriving DecidableEq, Repr

/-- The project → `Organization` mapping of the self-hosted
`getOrganizations`. -/
def bitbucketProjectToOrganization (project : BitbucketProject) : Organization :=
  { id := project.uuid
    name := project.key
    displayName := some project.name
    description := project.description
    webUrl := project.links_html_href
    role := some "member" }

/-- A branch or tag row; the adapters only read `.name`. -/
structure NamedRef where
  name : String
deriving DecidableEq, Repr

/-! ## Pagination accumulators

A platform's paginated endpoint is modelled by the full item sequence it
would serve for the query; page `p` of size `k` is
`(items.drop ((p-1)*k)).take k`.  The loops below are the three loop shapes
that occur in the adapters, abstracted over the raw item type and the
per-item DTO mapping only. -/

/-- The inner `for` loop shared by the GitLab and Bitbucket accumulators:
`for (item of page) { if (acc.length >= maxItems) break; acc.push(f item) }`. -/
def pushCapped (cap : Cap) (f : α → β) : List β → List α → List β
  | acc, [] => acc
  | acc, x :: rest =>
    if capLt acc.length cap then pushCapped cap f (acc ++ [f x]) rest
    else acc

/-- The GitLab page loop: `while (acc.length < maxItems)` requesting numbered
pages of size `perPage`, stopping on an empty page (GitLab sends no `next`
marker; the loop past the last item fetches an empty page and breaks). -/
def gitlabPaginate (perPage : Nat) (cap : Cap) (f : α → β) (acc : List β)
    (remaining : List α) : List β :=
  if capLt acc.length cap then
    if h : (remaining.take perPage).isEmpty then acc
    else
      gitlabPaginate perPage cap f (pushCapped cap f acc (remaining.take perPage))
        (remaining.drop perPage)
  else acc
termination_by remaining.length
decreasing_by
  simp only [List.isEmpty_iff, List.take_eq_nil_iff, not_or] at h
  rcases h with ⟨hp, hr⟩
  have hr' : 0 < remaining.length := List.length_pos.mpr hr
  simp only [List.length_drop]
  omega

/-- The Bitbucket page loop: like the GitLab loop but additionally stopping
when the response carries no `next` link (modelled: no items remain past the
current page). -/
def bitbucketPaginate (pagelen : Nat) (cap : Cap) (f : α → β) (acc : List β)
    (remaining : List α) : List β :=
  if capLt acc.length cap then
    if h : (remaining.take pagelen).isEmpty then acc
    else
      let acc' := pushCapped cap f acc (remaining.take pagelen)
      if (remaining.drop pagelen).isEmpty then acc'
      else bitbucketPaginate pagelen cap f acc' (remaining.drop pagelen)
  else acc
termination_by remaining.length
decreasing_by
  simp only [List.isEmpty_iff, List.take_eq_nil_iff, not_or] at h
  rcases h with ⟨hp, hr⟩
  have hr' : 0 < remaining.length := List.length_pos.mpr hr
  simp only [List.length_drop]
  omega

/-- The inner loop of the GitHub iterator pattern:
`for (r of page) { if (acc.length >= maxItems) return acc; if (keep r)
acc.push(f r) }`; `Sum.inl` is the early `return`. -/
def githubPushPage (cap : Cap) (keep : α → Bool) (f : α → β) :
    List β → List α → List β ⊕ List β
  | acc, [] => Sum.inr acc
  | acc, r :: rest =>
    if capLt acc.length cap then
      if keep r then githubPushPage cap keep f (acc ++ [f r]) rest
      else githubPushPage cap keep f acc rest
    else Sum.inl acc

/-- The GitHub `for await (page of paginate.iterator(...))` loop: pages of
size `perPage` until the iterator is exhausted, with the per-item early
`return` of `githubPushPage`. -/
def githubPaginate (perPage : Nat) (cap : Cap) (keep : α → Bool) (f : α → β)
    (acc : List β) (remaining : List α) : List β :=
  if h : (remaining.take perPage).isEmpty then acc
  else
    match githubPushPage cap keep f acc (remaining.take perPage) with
    | Sum.inl final => final
    | Sum.inr acc' => githubPaginate perPage cap keep f acc' (remaining.drop perPage)
termination_by remaining.length
decreasing_by
  simp only [List.isEmpty_iff, List.take_eq_nil_iff, not_or] at h
  rcases h with ⟨hp, hr⟩
  have hr' : 0 < remaining.length := List.length_pos.mpr hr
  simp only [List.length_drop]
  omega

/-! ## GitLab provider operations (`@uni-git/provider-gitlab`)

Each operation computes `perPage = min(options?.perPage || 100, 100)` and
`maxItems = options?.maxItems || Infinity` and runs the GitLab page loop.
The platform is a function from the forwarded query parameters to the item
sequence it serves (so a `search` argument reaches the result only through
the platform — the loop never filters). -/

/-- `options?.perPage` through an optional options object. -/
def optPerPage (options : Option PaginationOptions) : Option Nat :=
  options.bind PaginationOptions.perPage

/-- `options?.maxItems` through an optional options object. -/
def optMaxItems (options : Option PaginationOptions) : Option Nat :=
  options.bind PaginationOptions.maxItems

/-- `GitLabProvider.getUserRepos`: `Projects.all({membership, search, ...})`
pages mapped through `gitlabProjectToRepo`. -/
def GitLabProvider.getUserRepos (search : Option String) (options : Option PaginationOptions)
    (projectsAll : Option String → List GitLabProject) : List Repo :=
  let perPage := min (jsOrNat (optPerPage options) 100) 100
  let maxItems := jsCap (optMaxItems options)
  gitlabPaginate perPage maxItems gitlabProjectToRepo [] (projectsAll search)

/-- `GitLabProvider.getOrganizations`: `Groups.all({membership, ...})` pages
mapped through `gitlabGroupToOrganization`. -/
def GitLabProvider.getOrganizations (options : Option PaginationOptions)
    (groupsAll : List GitLabGroup) : List Organization :=
  let perPage := min (jsOrNat (optPerPage options) 100) 100
  let maxItems := jsCap (optMaxItems options)
  gitlabPaginate perPage maxItems gitlabGroupToOrganization [] groupsAll

/-- `GitLabProvider.getOrganizationRepos`: `Groups.allProjects(org, {search,
...})` pages mapped through `gitlabProjectToRepo`. -/
def GitLabProvider.getOrganizationRepos (organizationName : String) (search : Option String)
    (options : Option PaginationOptions)
    (allProjects : String → Option String → List GitLabProject) : List Repo :=
  let perPage := min (jsOrNat (optPerPage options) 100) 100
  let maxItems := jsCap (optMaxItems options)
  gitlabPaginate perPage maxItems gitlabProjectToRepo [] (allProjects organizationName search)

/-- `GitLabProvider.getRepoBranches`: `Branches.all(fullName)` pages of
`branch.name`. -/
def GitLabProvider.getRepoBranches (repoFullName : String) (options : Option PaginationOptions)
    (branchesAll : String → List NamedRef) : List String :=
  let perPage := min (jsOrNat (optPerPage options) 100) 100
  let maxItems := jsCap (optMaxItems options)
  gitlabPaginate perPage maxItems NamedRef.name [] (branchesAll repoFullName)

/-- `GitLabProvider.getRepoTags`: `Tags.all(fullName)` pages of `tag.name`. -/
def GitLabProvider.getRepoTags (repoFullName : String) (options : Option PaginationOptions)
    (tagsAll : String → List NamedRef) : List String :=
  let perPage := min (jsOrNat (optPerPage options) 100) 100
  let maxItems := jsCap (optMaxItems options)
  gitlabPaginate perPage maxItems NamedRef.name [] (tagsAll repoFullName)

/-! ## GitHub provider operations (`@uni-git/provider-github`) -/

/-- JS `String.prototype.split` on a single separator character, on the
underlying character list: `"a//b"` → `["a", "", "b"]`, `""` → `[""]`. -/
def jsStringSplit (sep : Char) : List Char → List (List Char)
  | [] => [[]]
  | x :: xs =>
    match jsStringSplit sep xs with
    | [] => [[]]
    | g :: gs => if x = sep then [] :: g :: gs else (x :: g) :: gs

/-- `const [owner, repo] = repoFullName.split("/")` — the two destructured
components (`""` standing for an undefined second component, which is falsy
exactly like an empty string). -/
def splitOwnerRepo (repoFullName : String) : String × String :=
  let parts := jsStringSplit '/' repoFullName.data
  (String.mk (parts.getD 0 []), String.mk (parts.getD 1 []))

/-- The client-side search predicate of `GitHubProvider.getUserRepos`:
`!search || r.full_name.includes(search) || r.name.includes(search)`. -/
def githubKeep (search : Option String) (r : GitHubRawRepo) : Bool :=
  match search with
  | none => true
  | some s => s = "" || jsIncludes r.full_name s || jsIncludes r.name s

/-- `GitHubProvider.getUserRepos`: iterates
`paginate.iterator(repos.listForAuthenticatedUser, {per_page, visibility,
sort, direction})` — the request carries no search parameter; filtering is
client-side via `githubKeep`. -/
def GitHubProvider.getUserRepos (search : Option String) (options : Option PaginationOptions)
    (listForAuthenticatedUser : List GitHubRawRepo) : List Repo :=
  let perPage := min (jsOrNat (optPerPage options) 100) 100
  let maxItems := jsCap (optMaxItems options)
  githubPaginate perPage maxItems (githubKeep search) githubRawToRepo [] listForAuthenticatedUser

/-- One attempt of `GitHubProvider.getRepoMetadata`: the owner/repo split
guard, then one capability call.  The second component counts calls that
reach the vendor capability in this attempt. -/
def GitHubProvider.getRepoMetadataOnce (repoFullName : String)
    (reposGet : String → String → Except TransportErr GitHubRawRepo) :
    Except DomainError Repo × Nat :=
  let owner := (splitOwnerRepo repoFullName).1
  let repo := (splitOwnerRepo repoFullName).2
  if owner = "" ∨ repo = "" then
    (Except.error (mapGitHubError (jsError ("Invalid repository name: " ++ repoFullName))), 0)
  else
    match reposGet owner repo with
    | Except.ok data => (Except.ok (githubRawToRepo data), 1)
    | Except.error e => (Except.error (mapGitHubError e), 1)

/-- `GitHubProvider.getRepoMetadata` = `withRetry` around
`getRepoMetadataOnce`.  A mapped domain error carries no `status` field, so
the default `shouldRetry` policy returns `true` for it; the capability-call
count is the per-attempt count times the number of attempts. -/
def GitHubProvider.getRepoMetadata (repoFullName : String)
    (reposGet : String → String → Except TransportErr GitHubRawRepo)
    (rand : Nat → ℚ) : Except DomainError Repo × Nat :=
  let once := GitHubProvider.getRepoMetadataOnce repoFullName reposGet
  let run := withRetry (fun _ => once.1) 3 1000 10000 true (fun _ => true) rand
  (run.1, run.2.1 * once.2)

/-- `GitHubProvider.getRepoBranches`: split guard, then the iterator loop
over `repos.listBranches` pages of `branch.name` (no filter). -/
def GitHubProvider.getRepoBranches (repoFullName : String) (options : Option PaginationOptions)
    (listBranches : String → String → List NamedRef) : Except DomainError (List String) :=
  let owner := (splitOwnerRepo repoFullName).1
  let repo := (splitOwnerRepo repoFullName).2
  if owner = "" ∨ repo = "" then
    Except.error (mapGitHubError (jsError ("Invalid repository name: " ++ repoFullName)))
  else
    let perPage := min (jsOrNat (optPerPage options) 100) 100
    let maxItems := jsCap (optMaxItems options)
    Except.ok (githubPaginate perPage maxItems (fun _ => true) NamedRef.name []
      (listBranches owner repo))

/-- `GitHubProvider.getRepoTags`: split guard, then the iterator loop over
`repos.listTags` pages of `tag.name` (no filter). -/
def GitHubProvider.getRepoTags (repoFullName : String) (options : Option PaginationOptions)
    (listTags : String → String → List NamedRef) : Except DomainError (List String) :=
  let owner := (splitOwnerRepo repoFullName).1
  let repo := (splitOwnerRepo repoFullName).2
  if owner = "" ∨ repo = "" then
    Except.error (mapGitHubError (jsError ("Invalid repository name: " ++ repoFullName)))
  else
    let perPage := min (jsOrNat (optPerPage options) 100) 100
    let maxItems := jsCap (optMaxItems options)
    Except.ok (githubPaginate perPage maxItems (fun _ => true) NamedRef.name []
      (listTags owner repo))

/-! ## Bitbucket provider operations (`@uni-git/provider-bitbucket`) -/

/-- Constructor options of `BitbucketProvider` (the fields the modelled
operations read). -/
structure BitbucketProviderOptions where
  baseUrl : Option String := none
  workspace : Option String := none
deriving DecidableEq, Repr

/-- `isBitbucketCloud`: default base URL `https://api.bitbucket.org/2.0`,
Cloud iff the effective base URL contains `bitbucket.org`. -/
def BitbucketProvider.isBitbucketCloud (opts : BitbucketProviderOptions) : Bool :=
  jsIncludes (jsOrStr opts.baseUrl "https://api.bitbucket.org/2.0") "bitbucket.org"

/-- `BitbucketProvider.getOrganizationRepos`: Cloud branch pages
`repositories.list({workspace, q})`; self-hosted branch pages
`projects.repositories({project, q})` with the fallback row mapping. -/
def BitbucketProvider.getOrganizationRepos (opts : BitbucketProviderOptions)
    (organizationName : String) (search : Option String) (options : Option PaginationOptions)
    (repositoriesListByWorkspace : String → Option String → List BitbucketRawRepo)
    (projectsRepositories : String → Option String → List BitbucketRawRepo) : List Repo :=
  let pagelen := min (jsOrNat (optPerPage options) 50) 100
  let maxItems := jsCap (optMaxItems options)
  if BitbucketProvider.isBitbucketCloud opts then
    bitbucketPaginate pagelen maxItems bitbucketRawToRepo []
      (repositoriesListByWorkspace organizationName search)
  else
    bitbucketPaginate pagelen maxItems (bitbucketProjectRepoToRepo organizationName) []
      (projectsRepositories organizationName search)

/-- The message of the Cloud missing-workspace guard of
`BitbucketProvider.getUserRepos`. -/
def bitbucketWorkspaceGuardMessage : String :=
  "Bitbucket Cloud requires a workspace parameter. " ++
  "Use listWorkspaces() to discover available workspaces, then provide one in the constructor."

/-- `BitbucketProvider.getUserRepos`: on Cloud, a falsy configured
`workspace` throws the guard `Error` (which the catch maps through
`mapBitbucketError`); otherwise the call delegates to
`getOrganizationRepos(workspace, ...)`.  Self-hosted uses the global
`repositories.list({role, q})` pages. -/
def BitbucketProvider.getUserRepos (opts : BitbucketProviderOptions) (search : Option String)
    (options : Option PaginationOptions)
    (repositoriesListByWorkspace : String → Option String → List BitbucketRawRepo)
    (projectsRepositories : String → Option String → List BitbucketRawRepo)
    (repositoriesListGlobal : Option String → List BitbucketRawRepo) :
    Except DomainError (List Repo) :=
  if BitbucketProvider.isBitbucketCloud opts then
    match jsTruthyOpt opts.workspace with
    | none => Except.error (mapBitbucketError (jsError bitbucketWorkspaceGuardMessage))
    | some workspace =>
      Except.ok (BitbucketProvider.getOrganizationRepos opts workspace search options
        repositoriesListByWorkspace projectsRepositories)
  else
    let pagelen := min (jsOrNat (optPerPage options) 50) 100
    let maxItems := jsCap (optMaxItems options)
    Except.ok (bitbucketPaginate pagelen maxItems bitbucketRawToRepo []
      (repositoriesListGlobal search))

/-- `BitbucketProvider.getOrganizations`: Cloud pages
`workspaces.getWorkspaces`; self-hosted pages `projects.list` (the
failure-swallowing `try` of that branch never fires in this pure model). -/
def BitbucketProvider.getOrganizations (opts : BitbucketProviderOptions)
    (options : Option PaginationOptions) (getWorkspaces : List BitbucketWorkspace)
    (projectsList : List BitbucketProject) : List Organization :=
  let pagelen := min (jsOrNat (optPerPage options) 50) 100
  let maxItems := jsCap (optMaxItems options)
  if BitbucketProvider.isBitbucketCloud opts then
    bitbucketPaginate pagelen maxItems bitbucketWorkspaceToOrganization [] getWorkspaces
  else
    bitbucketPaginate pagelen maxItems bitbucketProjectToOrganization [] projectsList

/-- One attempt of `BitbucketProvider.getRepoMetadata`: the workspace/slug
split guard, then one capability call; the second component counts
capability calls. -/
def BitbucketProvider.getRepoMetadataOnce (repoFullName : String)
    (repositoriesGet : String → String → Except TransportErr BitbucketRawRepo) :
    Except DomainError Repo × Nat :=
  let workspace := (splitOwnerRepo repoFullName).1
  let repoSlug := (splitOwnerRepo repoFullName).2
  if workspace = "" ∨ repoSlug = "" then
    (Except.error (mapBitbucketError (jsError ("Invalid repository name: " ++ repoFullName))), 0)
  else
    match repositoriesGet workspace repoSlug with
    | Except.ok data => (Except.ok (bitbucketRawToRepo data), 1)
    | Except.error e => (Except.error (mapBitbucketError e), 1)

/-- `BitbucketProvider.getRepoMetadata` = `withRetry` around
`getRepoMetadataOnce` (mapped domain errors have no `status`, so the default
policy retries them). -/
def BitbucketProvider.getRepoMetadata (repoFullName : String)
    (repositoriesGet : String → String → Except TransportErr BitbucketRawRepo)
    (rand : Nat → ℚ) : Except DomainError Repo × Nat :=
  let once := BitbucketProvider.getRepoMetadataOnce repoFullName repositoriesGet
  let run := withRetry (fun _ => once.1) 3 1000 10000 true (fun _ => true) rand
  (run.1, run.2.1 * once.2)

/-- `BitbucketProvider.getRepoBranches`: split guard then the Bitbucket page
loop over `refs.listBranches` rows of `branch.name`. -/
def BitbucketProvider.getRepoBranches (repoFullName : String)
    (options : Option PaginationOptions) (listBranches : String → String → List NamedRef) :
    Except DomainError (List String) :=
  let workspace := (splitOwnerRepo repoFullName).1
  let repoSlug := (splitOwnerRepo repoFullName).2
  if workspace = "" ∨ repoSlug = "" then
    Except.error (mapBitbucketError (jsError ("Invalid repository name: " ++ repoFullName)))
  else
    let pagelen := min (jsOrNat (optPerPage options) 50) 100
    let maxItems := jsCap (optMaxItems options)
    Except.ok (bitbucketPaginate pagelen maxItems NamedRef.name []
      (listBranches workspace repoSlug))

/-! ## Unified factory (`@uni-git/unified` `factory.ts`) -/

/-- The platform discriminator of `UnifiedProviderConfig`; `invalid` models
a genuinely unknown external tag. -/
inductive ProviderType where
  | github | gitlab | bitbucket | invalid (tag : String)
deriving DecidableEq, Repr

/-- The configuration accepted by `createProvider`, reduced to the
discriminator the dispatch switches on. -/
structure UnifiedProviderConfig where
  type : ProviderType
deriving DecidableEq, Repr

/-- The constructed adapter, by platform. -/
inductive ProviderHandle where
  | github | gitlab | bitbucket
deriving DecidableEq, Repr

/-- `createProvider`: pure dispatch on the platform tag; an unknown tag is a
`ConfigurationError`.  (The `MODULE_NOT_FOUND` re-wrap is environmental and
outside this model: the provider modules are taken as installed.) -/
def createProvider (config : UnifiedProviderConfig) : Except DomainError ProviderHandle :=
  match config.type with
  | .github => Except.ok ProviderHandle.github
  | .gitlab => Except.ok ProviderHandle.gitlab
  | .bitbucket => Except.ok ProviderHandle.bitbucket
  | .invalid tag => Except.error (.configurationError ("Unsupported provider type: " ++ tag))

/-- Message text of a domain error (what `error.message` reads on the thrown
object). -/
def DomainError.message : DomainError → String
  | .authError message _ => message
  | .notFoundError message _ => message
  | .rateLimitError _ => "Rate limit exceeded"
  | .networkError message _ => message
  | .configurationError message => message

/-- `createProviderWithOrganizations`: `createProvider`, then one
`getOrganizations()` in a `try`; on failure the factory returns the provider
with an empty organization list and pushes a console warning (second
component) instead of throwing. -/
def createProviderWithOrganizations (config : UnifiedProviderConfig)
    (getOrganizations : ProviderHandle → Except DomainError (List Organization)) :
    Except DomainError (ProviderHandle × List Organization) × List String :=
  match createProvider config with
  | Except.error e => (Except.error e, [])
  | Except.ok provider =>
    match getOrganizations provider with
    | Except.ok organizations => (Except.ok (provider, organizations), [])
    | Except.error err =>
      (Except.ok (provider, []),
        ["Warning: Could not discover organizations: " ++ err.message])

/-! ## Extractor-chain semantics of the mappers

The spec describes each mapper as an ordered list of extractors, tried in
sequence, first match wins.  `applyChain` is that semantics; the extractors
below reify the branches of the three mappers so the mappers can be proved
equal to their actual chains. -/

/-- Ordered-fallback semantics: try each extractor in order, first `some`
wins, otherwise the default. -/
def applyChain (chain : List (TransportErr → Option DomainError))
    (dflt : TransportErr → DomainError) (e : TransportErr) : DomainError :=
  match chain with
  | [] => dflt e
  | probe :: rest =>
    match probe e with
    | some d => d
    | none => applyChain rest dflt e

/-- GitLab extractor (1st in source): `error.cause.status`. -/
def gitlabCauseExtractor (e : TransportErr) : Option DomainError :=
  if e.isObject then
    e.cause.bind fun c =>
      c.status.map fun status => gitlabStatusSwitch status (jsOrStr c.message "GitLab API error") e
  else none

/-- GitLab extractor (2nd in source): commits to the `response` switch as
soon as the `response` property exists. -/
def gitlabResponseExtractor (e : TransportErr) : Option DomainError :=
  if e.isObject then
    e.response.map fun r => gitlabResponseSwitch r.status (jsOrStr r.statusText "GitLab API error") e
  else none

/-- GitLab extractor (3rd in source): direct `error.status`. -/
def gitlabDirectExtractor (e : TransportErr) : Option DomainError :=
  if e.isObject then
    e.status.map fun status => gitlabStatusSwitch status (jsStrOr e.message "GitLab API error") e
  else none

/-- GitLab extractor (4th in source): message-substring heuristics, only for
`Error` instances. -/
def gitlabMessageExtractor (e : TransportErr) : Option DomainError :=
  if e.isErrorInstance then
    if jsIncludes e.message "Unauthorized" || jsIncludes e.message "401" then
      some (.authError "GitLab authentication failed" e)
    else if jsIncludes e.message "Not Found" || jsIncludes e.message "404" then
      some (.notFoundError "Repository not found" e)
    else if jsIncludes e.message "Rate limit" || jsIncludes e.message "429" then
      some (.rateLimitError e)
    else none
  else none

/-- GitLab default: wrap as a `NetworkError`. -/
def gitlabDefault (e : TransportErr) : DomainError :=
  if e.isErrorInstance then .networkError ("GitLab request failed: " ++ e.message) e
  else .networkError "Unknown GitLab error" e

/-- GitHub's only extractor: direct `error.status`. -/
def githubDirectExtractor (e : TransportErr) : Option DomainError :=
  if e.isObject then
    e.status.map fun status => githubStatusSwitch status (jsStrOr e.message "GitHub API error") e
  else none

/-- GitHub default: wrap as a `NetworkError`. -/
def githubDefault (e : TransportErr) : DomainError :=
  if e.isErrorInstance then .networkError ("GitHub request failed: " ++ e.message) e
  else .networkError "Unknown GitHub error" e

/-- Bitbucket extractor (1st in source): direct `error.status`. -/
def bitbucketDirectExtractor (e : TransportErr) : Option DomainError :=
  if e.isObject then
    e.status.map fun status => bitbucketStatusSwitch status (jsStrOr e.message "Bitbucket API error") e
  else none

/-- Bitbucket extractor (2nd in source): commits to the `response` switch as
soon as the `response` property exists. -/
def bitbucketResponseExtractor (e : TransportErr) : Option DomainError :=
  if e.isObject then
    e.response.map fun r =>
      bitbucketResponseSwitch r.status (jsOrStr r.statusText "Bitbucket API error") e
  else none

/-- Bitbucket default: wrap as a `NetworkError`. -/
def bitbucketDefault (e : TransportErr) : DomainError :=
  if e.isErrorInstance then .networkError ("Bitbucket request failed: " ++ e.message) e
  else .networkError "Unknown Bitbucket error" e

/-! ## Claim-side (spec-worded) reference definitions -/

/-- The uniform status → kind table asserted by the spec (§4.2): 401/403 →
Auth, 404 → NotFound, 429 → RateLimit, anything else (5xx and remaining 4xx
alike) → Network. -/
def uniformStatusKind (status : Int) : DomainKind :=
  if status = 401 ∨ status = 403 then .auth
  else if status = 404 then .notFound
  else if status = 429 then .rateLimit
  else .network

/-- Modelled from the claim C5 wording (for comparison with the source
mappers): try (a) the direct status field, then (b) the response-nested
status, then (c) the cause-nested status, then (d) the message-substring
heuristics, and (e) default to Network. -/
def claimOrderedFallbackKind (e : TransportErr) : DomainKind :=
  match e.status with
  | some s => uniformStatusKind s
  | none =>
    match e.response.bind ResponseField.status with
    | some s => uniformStatusKind s
    | none =>
      match e.cause.bind CauseField.status with
      | some s => uniformStatusKind s
      | none =>
        if jsIncludes e.message "Unauthorized" || jsIncludes e.message "401" then .auth
        else if jsIncludes e.message "Not Found" || jsIncludes e.message "404" then .notFound
        else if jsIncludes e.message "Rate limit" || jsIncludes e.message "429" then .rateLimit
        else .network

/-! ## Lemmas: inner capped push -/

lemma pushCapped_none (f : α → β) :
    ∀ (items : List α) (acc : List β), pushCapped none f acc items = acc ++ items.map f := by
  intro items
  induction items with
  | nil => intro acc; simp [pushCapped]
  | cons x rest ih =>
    intro acc
    show pushCapped none f (acc ++ [f x]) rest = acc ++ (f x :: rest.map f)
    rw [ih]
    simp

lemma pushCapped_some (f : α → β) (m : Nat) :
    ∀ (items : List α) (acc : List β),
      pushCapped (some m) f acc items = acc ++ (items.take (m - acc.length)).map f := by
  intro items
  induction items with
  | nil => intro acc; simp [pushCapped]
  | cons x rest ih =>
    intro acc
    by_cases hlt : acc.length < m
    · have hc : capLt acc.length (some m) = true := by simp [capLt, hlt]
      rw [pushCapped, if_pos hc, ih]
      have h1 : m - acc.length = (m - (acc.length + 1)) + 1 := by omega
      simp [h1, List.take_succ_cons]
    · have hc : ¬ capLt acc.length (some m) = true := by simp [capLt]; omega
      rw [pushCapped, if_neg hc]
      have h0 : m - acc.length = 0 := by omega
      simp [h0]

lemma pushCapped_some_length (f : α → β) (m : Nat) (items : List α) (acc : List β) :
    (pushCapped (some m) f acc items).length =
      acc.length + min (m - acc.length) items.length := by
  rw [pushCapped_some]
  simp [List.length_take]

/-! ## Lemmas: GitLab page loop -/

lemma take_isEmpty_nil {rem : List α} {perPage : Nat} (hp : 1 ≤ perPage)
    (he : (rem.take perPage).isEmpty) : rem = [] := by
  rcases (List.take_eq_nil_iff).mp (List.isEmpty_iff.mp he) with h | h
  · omega
  · exact h

lemma take_not_isEmpty_pos {rem : List α} {perPage : Nat}
    (he : ¬ (rem.take perPage).isEmpty = true) : 0 < rem.length := by
  by_contra hc
  push_neg at hc
  have hnil : rem = [] := List.eq_nil_of_length_eq_zero (by omega)
  subst hnil
  simp at he

lemma gitlabPaginate_none_aux (f : α → β) (perPage : Nat) (hp : 1 ≤ perPage) :
    ∀ (n : Nat) (rem : List α), rem.length ≤ n → ∀ acc,
      gitlabPaginate perPage none f acc rem = acc ++ rem.map f := by
  intro n
  induction n with
  | zero =>
    intro rem hle acc
    have hnil : rem = [] := List.eq_nil_of_length_eq_zero (Nat.le_zero.mp hle)
    subst hnil
    rw [gitlabPaginate]
    simp [capLt]
  | succ n ih =>
    intro rem hle acc
    rw [gitlabPaginate]
    rw [if_pos (show capLt acc.length none = true from rfl)]
    by_cases he : (rem.take perPage).isEmpty
    · have hnil : rem = [] := take_isEmpty_nil hp he
      subst hnil
      simp
    · rw [dif_neg he]
      have hpos : 0 < rem.length := take_not_isEmpty_pos he
      have hlen : (rem.drop perPage).length ≤ n := by
        simp only [List.length_drop]; omega
      rw [ih (rem.drop perPage) hlen]
      rw [pushCapped_none]
      rw [List.append_assoc, ← List.map_append, List.take_append_drop]

lemma gitlabPaginate_none (f : α → β) (perPage : Nat) (hp : 1 ≤ perPage)
    (rem : List α) (acc : List β) :
    gitlabPaginate perPage none f acc rem = acc ++ rem.map f :=
  gitlabPaginate_none_aux f perPage hp rem.length rem le_rfl acc

lemma gitlabPaginate_some_aux (f : α → β) (perPage m : Nat) (hp : 1 ≤ perPage) :
    ∀ (n : Nat) (rem : List α), rem.length ≤ n → ∀ acc, acc.length ≤ m →
      gitlabPaginate perPage (some m) f acc rem =
        acc ++ (rem.take (m - acc.length)).map f := by
  intro n
  induction n with
  | zero =>
    intro rem hle acc hacc
    have hnil : rem = [] := List.eq_nil_of_length_eq_zero (Nat.le_zero.mp hle)
    subst hnil
    rw [gitlabPaginate]
    by_cases hlt : acc.length < m <;> simp [capLt, hlt]
  | succ n ih =>
    intro rem hle acc hacc
    rw [gitlabPaginate]
    by_cases hlt : acc.length < m
    · rw [if_pos (show capLt acc.length (some m) = true by simp [capLt, hlt])]
      by_cases he : (rem.take perPage).isEmpty
      · have hnil : rem = [] := take_isEmpty_nil hp he
        subst hnil
        simp
      · rw [dif_neg he]
        have hpos : 0 < rem.length := take_not_isEmpty_pos he
        have hlen : (rem.drop perPage).length ≤ n := by
          simp only [List.length_drop]; omega
        have hacc' : (pushCapped (some m) f acc (rem.take perPage)).length ≤ m := by
          rw [pushCapped_some_length]; omega
        rw [ih (rem.drop perPage) hlen _ hacc']
        rw [pushCapped_some_length, pushCapped_some]
        rw [List.append_assoc, ← List.map_append]
        congr 1
        conv_rhs => rw [← List.take_append_drop perPage rem]
        rw [List.take_append_eq_append_take]
        have harith : m - (acc.length + min (m - acc.length) (rem.take perPage).length) =
            m - acc.length - (rem.take perPage).length := by omega
        rw [harith]
    · rw [if_neg (show ¬ capLt acc.length (some m) = true by simp [capLt]; omega)]
      have h0 : m - acc.length = 0 := by omega
      simp [h0]

lemma gitlabPaginate_some (f : α → β) (perPage m : Nat) (hp : 1 ≤ perPage) (rem : List α) :
    gitlabPaginate perPage (some m) f [] rem = (rem.take m).map f := by
  have h := gitlabPaginate_some_aux f perPage m hp rem.length rem le_rfl [] (by simp)
  simpa using h

/-! ## Lemmas: Bitbucket page loop

The extra `!data.next` early exit only fires when nothing remains past the
current page, so the Bitbucket loop computes the same list as the GitLab
loop. -/

lemma bitbucketPaginate_none_aux (f : α → β) (pagelen : Nat) (hp : 1 ≤ pagelen) :
    ∀ (n : Nat) (rem : List α), rem.length ≤ n → ∀ acc,
      bitbucketPaginate pagelen none f acc rem = acc ++ rem.map f := by
  intro n
  induction n with
  | zero =>
    intro rem hle acc
    have hnil : rem = [] := List.eq_nil_of_length_eq_zero (Nat.le_zero.mp hle)
    subst hnil
    rw [bitbucketPaginate]
    simp [capLt]
  | succ n ih =>
    intro rem hle acc
    rw [bitbucketPaginate]
    rw [if_pos (show capLt acc.length none = true from rfl)]
    by_cases he : (rem.take pagelen).isEmpty
    · have hnil : rem = [] := take_isEmpty_nil hp he
      subst hnil
      simp
    · rw [dif_neg he]
      have hpos : 0 < rem.length := take_not_isEmpty_pos he
      by_cases hnext : (rem.drop pagelen).isEmpty
      · rw [if_pos hnext]
        have hdrop : rem.drop pagelen = [] := List.isEmpty_iff.mp hnext
        have hpage : rem.take pagelen = rem := by
          conv_rhs => rw [← List.take_append_drop pagelen rem]
          rw [hdrop, List.append_nil]
        rw [pushCapped_none, hpage]
      · rw [if_neg hnext]
        have hlen : (rem.drop pagelen).length ≤ n := by
          simp only [List.length_drop]; omega
        rw [ih (rem.drop pagelen) hlen]
        rw [pushCapped_none]
        rw [List.append_assoc, ← List.map_append, List.take_append_drop]

lemma bitbucketPaginate_none (f : α → β) (pagelen : Nat) (hp : 1 ≤ pagelen)
    (rem : List α) (acc : List β) :
    bitbucketPaginate pagelen none f acc rem = acc ++ rem.map f :=
  bitbucketPaginate_none_aux f pagelen hp rem.length rem le_rfl acc

lemma bitbucketPaginate_some_aux (f : α → β) (pagelen m : Nat) (hp : 1 ≤ pagelen) :
    ∀ (n : Nat) (rem : List α), rem.length ≤ n → ∀ acc, acc.length ≤ m →
      bitbucketPaginate pagelen (some m) f acc rem =
        acc ++ (rem.take (m - acc.length)).map f := by
  intro n
  induction n with
  | zero =>
    intro rem hle acc hacc
    have hnil : rem = [] := List.eq_nil_of_length_eq_zero (Nat.le_zero.mp hle)
    subst hnil
    rw [bitbucketPaginate]
    by_cases hlt : acc.length < m <;> simp [capLt, hlt]
  | succ n ih =>
    intro rem hle acc hacc
    rw [bitbucketPaginate]
    by_cases hlt : acc.length < m
    · rw [if_pos (show capLt acc.length (some m) = true by simp [capLt, hlt])]
      by_cases he : (rem.take pagelen).isEmpty
      · have hnil : rem = [] := take_isEmpty_nil hp he
        subst hnil
        simp
      · rw [dif_neg he]
        have hpos : 0 < rem.length := take_not_isEmpty_pos he
        by_cases hnext : (rem.drop pagelen).isEmpty
        · rw [if_pos hnext]
          have hdrop : rem.drop pagelen = [] := List.isEmpty_iff.mp hnext
          have hpage : rem.take pagelen = rem := by
            conv_rhs => rw [← List.take_append_drop pagelen rem]
            rw [hdrop, List.append_nil]
          rw [pushCapped_some, hpage]
        · rw [if_neg hnext]
          have hlen : (rem.drop pagelen).length ≤ n := by
            simp only [List.length_drop]; omega
          have hacc' : (pushCapped (some m) f acc (rem.take pagelen)).length ≤ m := by
            rw [pushCapped_some_length]; omega
          rw [ih (rem.drop pagelen) hlen _ hacc']
          rw [pushCapped_some_length, pushCapped_some]
          rw [List.append_assoc, ← List.map_append]
          congr 1
          conv_rhs => rw [← List.take_append_drop pagelen rem]
          rw [List.take_append_eq_append_take]
          have harith : m - (acc.length + min (m - acc.length) (rem.take pagelen).length) =
              m - acc.length - (rem.take pagelen).length := by omega
          rw [harith]
    · rw [if_neg (show ¬ capLt acc.length (some m) = true by simp [capLt]; omega)]
      have h0 : m - acc.length = 0 := by omega
      simp [h0]

lemma bitbucketPaginate_some (f : α → β) (pagelen m : Nat) (hp : 1 ≤ pagelen) (rem : List α) :
    bitbucketPaginate pagelen (some m) f [] rem = (rem.take m).map f := by
  have h := bitbucketPaginate_some_aux f pagelen m hp rem.length rem le_rfl [] (by simp)
  simpa using h

/-! ## Lemmas: GitHub iterator loop -/

lemma githubPushPage_none (keep : α → Bool) (f : α → β) :
    ∀ (page : List α) (acc : List β),
      githubPushPage none keep f acc page = Sum.inr (acc ++ (page.filter keep).map f) := by
  intro page
  induction page with
  | nil => intro acc; simp [githubPushPage]
  | cons r rest ih =>
    intro acc
    show (if capLt acc.length none = true then _ else _) = _
    rw [if_pos (show capLt acc.length none = true from rfl)]
    by_cases hk : keep r
    · rw [if_pos hk, ih]
      simp [List.filter_cons, hk]
    · rw [if_neg hk, ih]
      simp [List.filter_cons, hk]

lemma githubPushPage_spec (keep : α → Bool) (f : α → β) (m : Nat) :
    ∀ (page : List α) (acc : List β), acc.length ≤ m →
      (∀ final, githubPushPage (some m) keep f acc page = Sum.inl final →
        final = acc ++ ((page.filter keep).take (m - acc.length)).map f ∧
          m - acc.length ≤ (page.filter keep).length) ∧
      (∀ acc', githubPushPage (some m) keep f acc page = Sum.inr acc' →
        acc' = acc ++ ((page.filter keep).map f) ∧ acc'.length ≤ m) := by
  intro page
  induction page with
  | nil =>
    intro acc hacc
    constructor
    · intro final hfinal
      simp [githubPushPage] at hfinal
    · intro acc' hacc'
      simp [githubPushPage] at hacc'
      subst hacc'
      simp [hacc]
  | cons r rest ih =>
    intro acc hacc
    by_cases hlt : acc.length < m
    · have hc : capLt acc.length (some m) = true := by simp [capLt, hlt]
      by_cases hk : keep r
      · have hlen : (acc ++ [f r]).length ≤ m := by simp; omega
        have ihr := ih (acc ++ [f r]) hlen
        constructor
        · intro final hfinal
          rw [githubPushPage, if_pos hc, if_pos hk] at hfinal
          obtain ⟨hval, hbound⟩ := ihr.1 final hfinal
          refine ⟨?_, ?_⟩
          · rw [hval]
            simp only [List.filter_cons, hk, if_true]
            have h1 : m - acc.length = (m - (acc.length + 1)) + 1 := by omega
            rw [h1, List.take_succ_cons]
            simp
          · simp only [List.filter_cons, hk, if_true, List.length_cons]
            simp at hbound
            omega
        · intro acc' hacc'
          rw [githubPushPage, if_pos hc, if_pos hk] at hacc'
          obtain ⟨hval, hbound⟩ := ihr.2 acc' hacc'
          refine ⟨?_, hbound⟩
          rw [hval]
          simp [List.filter_cons, hk]
      · have ihr := ih acc hacc
        constructor
        · intro final hfinal
          rw [githubPushPage, if_pos hc, if_neg hk] at hfinal
          obtain ⟨hval, hbound⟩ := ihr.1 final hfinal
          exact ⟨by rw [hval]; simp [List.filter_cons, hk], by simpa [List.filter_cons, hk] using hbound⟩
        · intro acc' hacc'
          rw [githubPushPage, if_pos hc, if_neg hk] at hacc'
          obtain ⟨hval, hbound⟩ := ihr.2 acc' hacc'
          exact ⟨by rw [hval]; simp [List.filter_cons, hk], hbound⟩
    · have hc : ¬ capLt acc.length (some m) = true := by simp [capLt]; omega
      constructor
      · intro final hfinal
        rw [githubPushPage, if_neg hc] at hfinal
        injection hfinal with h
        have h0 : m - acc.length = 0 := by omega
        constructor
        · rw [← h, h0]; simp
        · omega
      · intro acc' hacc'
        rw [githubPushPage, if_neg hc] at hacc'
        exact absurd hacc' (by simp)

lemma githubPaginate_none_aux (keep : α → Bool) (f : α → β) (perPage : Nat) (hp : 1 ≤ perPage) :
    ∀ (n : Nat) (rem : List α), rem.length ≤ n → ∀ acc,
      githubPaginate perPage none keep f acc rem = acc ++ (rem.filter keep).map f := by
  intro n
  induction n with
  | zero =>
    intro rem hle acc
    have hnil : rem = [] := List.eq_nil_of_length_eq_zero (Nat.le_zero.mp hle)
    subst hnil
    rw [githubPaginate]
    simp
  | succ n ih =>
    intro rem hle acc
    rw [githubPaginate]
    by_cases he : (rem.take perPage).isEmpty
    · have hnil : rem = [] := take_isEmpty_nil hp he
      subst hnil
      simp
    · rw [dif_neg he]
      have hpos : 0 < rem.length := take_not_isEmpty_pos he
      have hlen : (rem.drop perPage).length ≤ n := by
        simp only [List.length_drop]; omega
      rw [githubPushPage_none]
      show githubPaginate perPage none keep f (acc ++ (List.filter keep
        (List.take perPage rem)).map f) (List.drop perPage rem) = _
      rw [ih (rem.drop perPage) hlen]
      rw [List.append_assoc, ← List.map_append, ← List.filter_append, List.take_append_drop]

lemma githubPaginate_none (keep : α → Bool) (f : α → β) (perPage : Nat) (hp : 1 ≤ perPage)
    (rem : List α) (acc : List β) :
    githubPaginate perPage none keep f acc rem = acc ++ (rem.filter keep).map f :=
  githubPaginate_none_aux keep f perPage hp rem.length rem le_rfl acc

lemma githubPaginate_some_aux (keep : α → Bool) (f : α → β) (perPage m : Nat)
    (hp : 1 ≤ perPage) :
    ∀ (n : Nat) (rem : List α), rem.length ≤ n → ∀ acc, acc.length ≤ m →
      githubPaginate perPage (some m) keep f acc rem =
        acc ++ ((rem.filter keep).take (m - acc.length)).map f := by
  intro n
  induction n with
  | zero =>
    intro rem hle acc hacc
    have hnil : rem = [] := List.eq_nil_of_length_eq_zero (Nat.le_zero.mp hle)
    subst hnil
    rw [githubPaginate]
    simp
  | succ n ih =>
    intro rem hle acc hacc
    rw [githubPaginate]
    by_cases he : (rem.take perPage).isEmpty
    · have hnil : rem = [] := take_isEmpty_nil hp he
      subst hnil
      simp
    · rw [dif_neg he]
      have hpos : 0 < rem.length := take_not_isEmpty_pos he
      have hlen : (rem.drop perPage).length ≤ n := by
        simp only [List.length_drop]; omega
      have hfsplit : rem.filter keep =
          (rem.take perPage).filter keep ++ (rem.drop perPage).filter keep := by
        rw [← List.filter_append, List.take_append_drop]
      cases hres : githubPushPage (some m) keep f acc (rem.take perPage) with
      | inl final =>
        obtain ⟨hval, hbound⟩ := (githubPushPage_spec keep f m (rem.take perPage) acc hacc).1
          final hres
        show final = _
        rw [hval, hfsplit, List.take_append_eq_append_take]
        have h2 : m - acc.length - ((rem.take perPage).filter keep).length = 0 := by omega
        rw [h2]
        simp
      | inr acc' =>
        obtain ⟨hval, hbound⟩ := (githubPushPage_spec keep f m (rem.take perPage) acc hacc).2
          acc' hres
        show githubPaginate perPage (some m) keep f acc' (List.drop perPage rem) = _
        rw [ih (rem.drop perPage) hlen acc' hbound]
        rw [hval, hfsplit, List.take_append_eq_append_take]
        rw [List.append_assoc, ← List.map_append]
        congr 1
        have hlenacc' : acc'.length = acc.length + ((rem.take perPage).filter keep).length := by
          rw [hval]; simp
        have htf : ((rem.take perPage).filter keep).length ≤ m - acc.length := by omega
        rw [List.take_of_length_le htf]
        have harith : m - (acc ++ ((rem.take perPage).filter keep).map f).length =
            m - acc.length - ((rem.take perPage).filter keep).length := by
          simp only [List.length_append, List.length_map]
          omega
        rw [harith]

lemma githubPaginate_some (keep : α → Bool) (f : α → β) (perPage m : Nat)
    (hp : 1 ≤ perPage) (rem : List α) :
    githubPaginate perPage (some m) keep f [] rem = ((rem.filter keep).take m).map f := by
  have h := githubPaginate_some_aux keep f perPage m hp rem.length rem le_rfl [] (by simp)
  simpa using h

/-! ## Lemmas: retry engine -/

lemma withRetryGo_calls_le (fn : Nat → Except E A) (mR : Nat) (sR : E → Bool)
    (b M : ℚ) (j : Bool) (rand : Nat → ℚ) :
    ∀ (fuel attempt : Nat),
      (withRetryGo fn mR sR b M j rand attempt fuel).2.1 ≤ fuel + 1 := by
  intro fuel
  induction fuel with
  | zero =>
    intro attempt
    rw [withRetryGo]
    cases hfa : fn attempt with
    | ok v => simp
    | error e =>
      simp only [hfa]
      by_cases hc : attempt = mR ∨ sR e = false
      · rw [if_pos hc]
      · rw [if_neg hc]
  | succ fuel ih =>
    intro attempt
    rw [withRetryGo]
    cases hfa : fn attempt with
    | ok v => simp [hfa]
    | error e =>
      simp only [hfa]
      by_cases hc : attempt = mR ∨ sR e = false
      · rw [if_pos hc]; simp
      · rw [if_neg hc]
        have h := ih (attempt + 1)
        simp only []
        omega

lemma withRetryGo_const_error (e : E) (mR : Nat) (sR : E → Bool)
    (b M : ℚ) (j : Bool) (rand : Nat → ℚ) :
    ∀ (fuel attempt : Nat),
      (withRetryGo (fun _ => Except.error e) mR sR b M j rand attempt fuel).1 =
        (Except.error e : Except E A) := by
  intro fuel
  induction fuel with
  | zero =>
    intro attempt
    rw [withRetryGo]
    simp only []
    by_cases hc : attempt = mR ∨ sR e = false
    · rw [if_pos hc]
    · rw [if_neg hc]
  | succ fuel ih =>
    intro attempt
    rw [withRetryGo]
    simp only []
    by_cases hc : attempt = mR ∨ sR e = false
    · rw [if_pos hc]
    · rw [if_neg hc]
      exact ih (attempt + 1)

lemma withRetryGo_all_fail (fn : Nat → Except E A) (mR : Nat) (sR : E → Bool)
    (es : Nat → E) (b M : ℚ) (j : Bool) (rand : Nat → ℚ)
    (hfail : ∀ k, k ≤ mR → fn k = Except.error (es k))
    (hretry : ∀ k, sR (es k) = true) :
    ∀ (fuel attempt : Nat), attempt + fuel = mR →
      (withRetryGo fn mR sR b M j rand attempt fuel).1 = Except.error (es mR) ∧
      (withRetryGo fn mR sR b M j rand attempt fuel).2.1 = fuel + 1 := by
  intro fuel
  induction fuel with
  | zero =>
    intro attempt hmr
    have ha : attempt = mR := by omega
    subst ha
    rw [withRetryGo]
    simp [hfail attempt le_rfl]
  | succ fuel ih =>
    intro attempt hmr
    rw [withRetryGo]
    simp only [hfail attempt (by omega)]
    have hc : ¬ (attempt = mR ∨ sR (es attempt) = false) := by
      push_neg
      exact ⟨by omega, by simp [hretry]⟩
    rw [if_neg hc]
    have h := ih (attempt + 1) (by omega)
    simp only []
    exact ⟨h.1, by omega⟩

lemma withRetryGo_fail_then_ok (fn : Nat → Except E A) (mR : Nat) (sR : E → Bool)
    (es : Nat → E) (v : A) (b M : ℚ) (j : Bool) (rand : Nat → ℚ)
    (hfail : ∀ k, k < mR → fn k = Except.error (es k))
    (hretry : ∀ k, sR (es k) = true)
    (hok : fn mR = Except.ok v) :
    ∀ (fuel attempt : Nat), attempt + fuel = mR →
      (withRetryGo fn mR sR b M j rand attempt fuel).1 = Except.ok v ∧
      (withRetryGo fn mR sR b M j rand attempt fuel).2.1 = fuel + 1 := by
  intro fuel
  induction fuel with
  | zero =>
    intro attempt hmr
    have ha : attempt = mR := by omega
    subst ha
    rw [withRetryGo]
    simp [hok]
  | succ fuel ih =>
    intro attempt hmr
    rw [withRetryGo]
    simp only [hfail attempt (by omega)]
    have hc : ¬ (attempt = mR ∨ sR (es attempt) = false) := by
      push_neg
      exact ⟨by omega, by simp [hretry]⟩
    rw [if_neg hc]
    have h := ih (attempt + 1) (by omega)
    simp only []
    exact ⟨h.1, by omega⟩

lemma withRetryGo_delays_struct (fn : Nat → Except E A) (mR : Nat) (sR : E → Bool)
    (b M : ℚ) (j : Bool) (rand : Nat → ℚ) :
    ∀ (fuel attempt : Nat), ∃ c,
      (withRetryGo fn mR sR b M j rand attempt fuel).2.2 =
        (List.range c).map (fun k => retryDelay b M j rand (attempt + k)) := by
  intro fuel
  induction fuel with
  | zero =>
    intro attempt
    refine ⟨0, ?_⟩
    rw [withRetryGo]
    cases hfa : fn attempt with
    | ok v => simp
    | error e =>
      simp only [hfa]
      by_cases hc : attempt = mR ∨ sR e = false
      · rw [if_pos hc]; simp
      · rw [if_neg hc]; simp
  | succ fuel ih =>
    intro attempt
    rw [withRetryGo]
    cases hfa : fn attempt with
    | ok v => exact ⟨0, by simp [hfa]⟩
    | error e =>
      simp only [hfa]
      by_cases hc : attempt = mR ∨ sR e = false
      · refine ⟨0, ?_⟩
        rw [if_pos hc]; simp
      · obtain ⟨c, hcs⟩ := ih (attempt + 1)
        refine ⟨c + 1, ?_⟩
        rw [if_neg hc]
        simp only []
        rw [hcs, List.range_succ_eq_map]
        simp only [List.map_cons, List.map_map, List.cons.injEq]
        refine ⟨by simp [retryDelay], ?_⟩
        apply List.map_congr_left
        intro k _
        simp only [Function.comp_apply]
        congr 1
        omega

lemma retryDelay_jitter_bounds (b M : ℚ) (rand : Nat → ℚ) (k : Nat)
    (hb : 0 ≤ b) (hM : 0 ≤ M) (hr0 : 0 ≤ rand k) (hr1 : rand k ≤ 1) :
    (1/2) * min (b * 2 ^ k) M ≤ retryDelay b M true rand k ∧
      retryDelay b M true rand k ≤ min (b * 2 ^ k) M := by
  have hd0 : (0:ℚ) ≤ min (b * 2 ^ k) M := le_min (by positivity) hM
  unfold retryDelay
  simp only [if_true]
  set d0 := min (b * 2 ^ k) M
  constructor
  · nlinarith
  · nlinarith

lemma retryDelay_nojitter (b M : ℚ) (rand : Nat → ℚ) (k : Nat) :
    retryDelay b M false rand k = min (b * 2 ^ k) M := rfl

/-! ## Lemmas: error mapper kinds and extractor chains -/

lemma githubStatusSwitch_kind (s : Int) (msg : String) (e : TransportErr) :
    (githubStatusSwitch s msg e).kind = uniformStatusKind s := by
  unfold githubStatusSwitch uniformStatusKind
  split_ifs <;> first | rfl | omega

lemma gitlabStatusSwitch_kind (s : Int) (msg : String) (e : TransportErr) :
    (gitlabStatusSwitch s msg e).kind = uniformStatusKind s := by
  unfold gitlabStatusSwitch uniformStatusKind
  split_ifs <;> first | rfl | omega

lemma gitlabResponseSwitch_kind (s : Int) (msg : String) (e : TransportErr) :
    (gitlabResponseSwitch (some s) msg e).kind = uniformStatusKind s := by
  unfold gitlabResponseSwitch uniformStatusKind
  simp only []
  split_ifs <;> first | rfl | omega

lemma bitbucketStatusSwitch_kind (s : Int) (msg : String) (e : TransportErr) :
    (bitbucketStatusSwitch s msg e).kind = uniformStatusKind s := by
  unfold bitbucketStatusSwitch uniformStatusKind
  split_ifs <;> first | rfl | omega

lemma bitbucketResponseSwitch_kind (s : Int) (msg : String) (e : TransportErr) :
    (bitbucketResponseSwitch (some s) msg e).kind = uniformStatusKind s := by
  unfold bitbucketResponseSwitch uniformStatusKind
  simp only []
  split_ifs <;> first | rfl | omega

lemma gitlabMessageFallback_chain (e : TransportErr) :
    gitlabMessageFallback e =
      (match gitlabMessageExtractor e with
        | some d => d
        | none => gitlabDefault e) := by
  unfold gitlabMessageFallback gitlabMessageExtractor gitlabDefault
  by_cases hie : e.isErrorInstance
  · simp only [hie, if_true]
    split_ifs <;> rfl
  · simp only [hie, Bool.false_eq_true, if_false]

lemma mapGitLabError_chain (e : TransportErr) :
    mapGitLabError e =
      applyChain [gitlabCauseExtractor, gitlabResponseExtractor, gitlabDirectExtractor,
        gitlabMessageExtractor] gitlabDefault e := by
  obtain ⟨ho, st, resp, cause, ie, msg⟩ := e
  cases ho with
  | false => exact gitlabMessageFallback_chain ⟨false, st, resp, cause, ie, msg⟩
  | true =>
    rcases cause with _ | ⟨cst, cmsg⟩
    · rcases resp with _ | r
      · rcases st with _ | s
        · exact gitlabMessageFallback_chain ⟨true, none, none, none, ie, msg⟩
        · rfl
      · rfl
    · rcases cst with _ | s
      · rcases resp with _ | r
        · rcases st with _ | s
          · exact gitlabMessageFallback_chain ⟨true, none, none, some ⟨none, cmsg⟩, ie, msg⟩
          · rfl
        · rfl
      · rfl

lemma mapGitHubError_chain (e : TransportErr) :
    mapGitHubError e = applyChain [githubDirectExtractor] githubDefault e := by
  obtain ⟨ho, st, resp, cause, ie, msg⟩ := e
  cases ho <;> rcases st with _ | s <;> rfl

lemma mapBitbucketError_chain (e : TransportErr) :
    mapBitbucketError e =
      applyChain [bitbucketDirectExtractor, bitbucketResponseExtractor] bitbucketDefault e := by
  obtain ⟨ho, st, resp, cause, ie, msg⟩ := e
  cases ho <;> rcases st with _ | s <;> rcases resp with _ | r <;> rfl

/-! ## Lemmas: effective pagination options and capped closed forms -/

lemma jsCap_some_pos (N : Nat) (hN : 0 < N) : jsCap (some N) = some N := by
  cases N with
  | zero => omega
  | succ n => rfl

lemma one_le_effPerPage (v : Option Nat) (d c : Nat) (hd : 1 ≤ d) (hc : 1 ≤ c) :
    1 ≤ min (jsOrNat v d) c := by
  rcases v with _ | n
  · simp [jsOrNat]; omega
  · cases n with
    | zero => simp [jsOrNat]; omega
    | succ n => simp [jsOrNat]; omega

lemma take_capMin (l : List α) (m : Nat) :
    l.take (capMin (some m) l.length) = l.take m := by
  simp only [capMin]
  rcases le_or_lt m l.length with h | h
  · rw [min_eq_left h]
  · rw [min_eq_right (le_of_lt h), List.take_length, List.take_of_length_le (le_of_lt h)]

lemma gitlabPaginate_capMin (f : α → β) (p : Nat) (hp : 1 ≤ p) (cap : Cap) (rem : List α) :
    gitlabPaginate p cap f [] rem = (rem.take (capMin cap rem.length)).map f := by
  cases cap with
  | none =>
    rw [gitlabPaginate_none f p hp]
    simp [capMin]
  | some m =>
    rw [gitlabPaginate_some f p m hp, take_capMin]

lemma bitbucketPaginate_capMin (f : α → β) (p : Nat) (hp : 1 ≤ p) (cap : Cap) (rem : List α) :
    bitbucketPaginate p cap f [] rem = (rem.take (capMin cap rem.length)).map f := by
  cases cap with
  | none =>
    rw [bitbucketPaginate_none f p hp]
    simp [capMin]
  | some m =>
    rw [bitbucketPaginate_some f p m hp, take_capMin]

lemma githubPaginate_capMin (keep : α → Bool) (f : α → β) (p : Nat) (hp : 1 ≤ p)
    (cap : Cap) (rem : List α) :
    githubPaginate p cap keep f [] rem =
      ((rem.filter keep).take (capMin cap (rem.filter keep).length)).map f := by
  cases cap with
  | none =>
    rw [githubPaginate_none keep f p hp]
    simp [capMin]
  | some m =>
    rw [githubPaginate_some keep f p m hp, take_capMin]

lemma capMin_some_take_map_length (f : α → β) (N : Nat) (l : List α) :
    ((l.take (capMin (some N) l.length)).map f).length = min N l.length := by
  simp only [capMin, List.length_map, List.length_take]
  omega

/-! ## Claim theorems -/

/-- C2: `withRetry` with `maxRetries = 3` runs the operation at most 4 times;
an operation failing on attempts 0–2 (with a retryable error each time) and
succeeding on attempt 3 yields the success value after exactly 4 executions;
an operation failing on all of attempts 0–3 makes `withRetry` surface, after
exactly 4 executions, precisely the error raised by the last attempt,
unchanged. -/
theorem c2_retry_attempt_budget {E A : Type} (fn : Nat → Except E A) (es : Nat → E) (v : A)
    (sR : E → Bool) (rand : Nat → ℚ)
    (hretry : ∀ k, sR (es k) = true) :
    ((∀ k, k < 3 → fn k = Except.error (es k)) → fn 3 = Except.ok v →
      (withRetry fn 3 1000 10000 true sR rand).1 = Except.ok v ∧
      (withRetry fn 3 1000 10000 true sR rand).2.1 = 4) ∧
    ((∀ k, k ≤ 3 → fn k = Except.error (es k)) →
      (withRetry fn 3 1000 10000 true sR rand).1 = Except.error (es 3) ∧
      (withRetry fn 3 1000 10000 true sR rand).2.1 = 4) ∧
    (∀ (gn : Nat → Except E A), (withRetry gn 3 1000 10000 true sR rand).2.1 ≤ 4) := by
  refine ⟨?_, ?_, ?_⟩
  · intro hfail hok
    exact withRetryGo_fail_then_ok fn 3 sR es v 1000 10000 true rand hfail hretry hok 3 0 rfl
  · intro hfail
    exact withRetryGo_all_fail fn 3 sR es 1000 10000 true rand hfail hretry 3 0 rfl
  · intro gn
    exact withRetryGo_calls_le gn 3 sR 1000 10000 true rand 3 0

/-- C2 witness: a concrete operation failing attempts 0–2 and succeeding at
attempt 3 returns `ok 7` in 4 calls; a concrete always-failing operation
surfaces the last error (attempt index 3) in 4 calls. -/
theorem c2_retry_attempt_budget_witness :
    ((withRetry (fun k => if k < 3 then Except.error k else Except.ok 7) 3 1000 10000 true
        (fun _ => true) (fun _ => 0)).1 = Except.ok 7 ∧
      (withRetry (fun k => if k < 3 then Except.error k else Except.ok 7) 3 1000 10000 true
        (fun _ => true) (fun _ => 0)).2.1 = 4) ∧
    ((withRetry (fun k => (Except.error k : Except Nat Nat)) 3 1000 10000 true
        (fun _ => true) (fun _ => 0)).1 = Except.error 3 ∧
      (withRetry (fun k => (Except.error k : Except Nat Nat)) 3 1000 10000 true
        (fun _ => true) (fun _ => 0)).2.1 = 4) := by
  constructor
  · exact (c2_retry_attempt_budget (fun k => if k < 3 then Except.error k else Except.ok 7)
      (fun k => k) 7 (fun _ => true) (fun _ => 0) (fun _ => rfl)).1
      (fun k hk => by simp [hk]) (by simp)
  · exact (c2_retry_attempt_budget (fun k => (Except.error k : Except Nat Nat))
      (fun k => k) 7 (fun _ => true) (fun _ => 0) (fun _ => rfl)).2.1
      (fun k _ => rfl)

/-- C3: with jitter enabled, every delay slept before retry attempt `i + 1`
lies between `0.5 * min(baseDelayMs * 2^i, maxDelayMs)` and
`min(baseDelayMs * 2^i, maxDelayMs)` (the jitter factor `0.5 + rand*0.5`
with `rand ∈ [0,1]` scales within `[0.5, 1]`); with jitter disabled the
slept delay equals `min(baseDelayMs * 2^i, maxDelayMs)` exactly. -/
theorem c3_backoff_delay_bounds {E A : Type} (fn : Nat → Except E A) (mR : Nat)
    (sR : E → Bool) (b M : ℚ) (rand : Nat → ℚ)
    (hb : 0 ≤ b) (hM : 0 ≤ M) (hr : ∀ k, 0 ≤ rand k ∧ rand k ≤ 1) :
    (∀ (i : Nat) (h : i < ((withRetry fn mR b M true sR rand).2.2).length),
      (1/2) * min (b * 2 ^ i) M ≤ ((withRetry fn mR b M true sR rand).2.2).get ⟨i, h⟩ ∧
      ((withRetry fn mR b M true sR rand).2.2).get ⟨i, h⟩ ≤ min (b * 2 ^ i) M) ∧
    (∀ (i : Nat) (h : i < ((withRetry fn mR b M false sR rand).2.2).length),
      ((withRetry fn mR b M false sR rand).2.2).get ⟨i, h⟩ = min (b * 2 ^ i) M) := by
  constructor
  · intro i h
    obtain ⟨c, hc⟩ := withRetryGo_delays_struct fn mR sR b M true rand mR 0
    have hget : ((withRetry fn mR b M true sR rand).2.2).get ⟨i, h⟩ =
        retryDelay b M true rand i := by
      show ((withRetryGo fn mR sR b M true rand 0 mR).2.2).get ⟨i, h⟩ = _
      have hstep := List.get_of_eq hc ⟨i, h⟩
      rw [hstep]
      simp
    rw [hget]
    have hbd := retryDelay_jitter_bounds b M rand i hb hM (hr i).1 (hr i).2
    exact hbd
  · intro i h
    obtain ⟨c, hc⟩ := withRetryGo_delays_struct fn mR sR b M false rand mR 0
    have hget : ((withRetry fn mR b M false sR rand).2.2).get ⟨i, h⟩ =
        retryDelay b M false rand i := by
      show ((withRetryGo fn mR sR b M false rand 0 mR).2.2).get ⟨i, h⟩ = _
      have hstep := List.get_of_eq hc ⟨i, h⟩
      rw [hstep]
      simp
    rw [hget]
    exact retryDelay_nojitter b M rand i

/-- C3 witness: concrete run (always-failing operation, `rand = 1/2`,
defaults `1000`/`10000`): the first slept delay is within the claimed
bounds. -/
theorem c3_backoff_delay_bounds_witness :
    (1/2) * min ((1000:ℚ) * 2 ^ 0) 10000 ≤
      ((withRetry (fun _ => (Except.error 0 : Except Nat Nat)) 3 1000 10000 true
        (fun _ => true) (fun _ => 1/2)).2.2).get ⟨0, by decide⟩ ∧
    ((withRetry (fun _ => (Except.error 0 : Except Nat Nat)) 3 1000 10000 true
        (fun _ => true) (fun _ => 1/2)).2.2).get ⟨0, by decide⟩ ≤
      min ((1000:ℚ) * 2 ^ 0) 10000 :=
  (c3_backoff_delay_bounds (fun _ => (Except.error 0 : Except Nat Nat)) 3
    (fun _ => true) 1000 10000 (fun _ => 1/2) (by norm_num) (by norm_num)
    (fun _ => by norm_num)).1 0 (by decide)

/-- C4: wherever one of the three mappers recognizes a numeric HTTP status
(direct field for all three; `response`-nested for GitLab and Bitbucket;
`cause`-nested for GitLab), the status-to-kind classification is the uniform
table of the spec: 401/403 → Auth, 404 → NotFound, 429 → RateLimit, and
everything else (5xx and remaining 4xx alike) → Network. -/
theorem c4_uniform_status_mapping (s : Int) (msg : String) (stext : Option String) :
    (mapGitHubError { isObject := true, status := some s, message := msg }).kind =
      uniformStatusKind s ∧
    (mapGitLabError { isObject := true, status := some s, message := msg }).kind =
      uniformStatusKind s ∧
    (mapBitbucketError { isObject := true, status := some s, message := msg }).kind =
      uniformStatusKind s ∧
    (mapGitLabError
        { isObject := true, cause := some { status := some s, message := stext } }).kind =
      uniformStatusKind s ∧
    (mapGitLabError
        { isObject := true, response := some { status := some s, statusText := stext } }).kind =
      uniformStatusKind s ∧
    (mapBitbucketError
        { isObject := true, response := some { status := some s, statusText := stext } }).kind =
      uniformStatusKind s := by
  refine ⟨?_, ?_, ?_, ?_, ?_, ?_⟩
  · exact githubStatusSwitch_kind s _ _
  · exact gitlabStatusSwitch_kind s _ _
  · exact bitbucketStatusSwitch_kind s _ _
  · exact gitlabStatusSwitch_kind s _ _
  · exact gitlabResponseSwitch_kind s _ _
  · exact bitbucketResponseSwitch_kind s _ _

/-- C5 counterexample: on an error carrying both a direct `status: 404` and
a nested `cause.status: 401`, the claimed order (direct field first) would
give NotFound, but `mapGitLabError` consults `cause` first and returns an
Auth error — the claimed fixed extractor order is not what the code does. -/
theorem c5_counterexample :
    (mapGitLabError
        { isObject := true, status := some 404,
          cause := some { status := some 401 } }).kind = DomainKind.auth ∧
    claimOrderedFallbackKind
        { isObject := true, status := some 404,
          cause := some { status := some 401 } } = DomainKind.notFound ∧
    DomainKind.auth ≠ DomainKind.notFound := by
  exact ⟨by decide, by decide, by decide⟩

/-- C5 amended: each mapper is an ordered first-match-wins extractor chain,
but the chains are per-mapper: GitLab tries cause-status, then
response-status, then direct status, then message-substring heuristics,
then defaults to Network; GitHub tries only the direct status field, then
defaults to Network; Bitbucket tries direct status, then response-status,
then defaults to Network. -/
theorem c5_mapper_extractor_chains (e : TransportErr) :
    mapGitLabError e =
      applyChain [gitlabCauseExtractor, gitlabResponseExtractor, gitlabDirectExtractor,
        gitlabMessageExtractor] gitlabDefault e ∧
    mapGitHubError e = applyChain [githubDirectExtractor] githubDefault e ∧
    mapBitbucketError e =
      applyChain [bitbucketDirectExtractor, bitbucketResponseExtractor] bitbucketDefault e :=
  ⟨mapGitLabError_chain e, mapGitHubError_chain e, mapBitbucketError_chain e⟩

/-- C8: when `createProvider` accepts the configuration but the subsequent
`getOrganizations()` fails, `createProviderWithOrganizations` does not
propagate the failure: it returns the provider paired with an empty
organization list and reports the failure only on the warning channel. -/
theorem c8_org_discovery_failure_tolerated (config : UnifiedProviderConfig)
    (p : ProviderHandle)
    (getOrganizations : ProviderHandle → Except DomainError (List Organization))
    (err : DomainError)
    (hok : createProvider config = Except.ok p)
    (hfail : getOrganizations p = Except.error err) :
    createProviderWithOrganizations config getOrganizations =
      (Except.ok (p, []),
        ["Warning: Could not discover organizations: " ++ err.message]) := by
  unfold createProviderWithOrganizations
  simp only [hok, hfail]

/-- C8 witness: GitHub configuration with a failing organization discovery
returns the provider, an empty list, and one warning. -/
theorem c8_org_discovery_failure_tolerated_witness :
    createProviderWithOrganizations ⟨ProviderType.github⟩
      (fun _ => Except.error (DomainError.configurationError "boom")) =
      (Except.ok (ProviderHandle.github, []),
        ["Warning: Could not discover organizations: " ++
          (DomainError.configurationError "boom").message]) :=
  c8_org_discovery_failure_tolerated ⟨ProviderType.github⟩ ProviderHandle.github
    (fun _ => Except.error (DomainError.configurationError "boom"))
    (DomainError.configurationError "boom") rfl rfl

/-- C6 counterexample: `getRepoMetadata("noseparator")` on the GitHub
adapter fails with zero capability calls, but the surfaced domain error is a
NetworkError (the thrown invalid-name `Error` is wrapped by the mapper), not
the Configuration-class error the claim asserts. -/
theorem c6_counterexample :
    (GitHubProvider.getRepoMetadata "noseparator"
      (fun _ _ => Except.error {}) (fun _ => 0)).2 = 0 ∧
    (GitHubProvider.getRepoMetadata "noseparator"
        (fun _ _ => Except.error {}) (fun _ => 0)).1 =
      Except.error (DomainError.networkError
        "GitHub request failed: Invalid repository name: noseparator"
        (jsError "Invalid repository name: noseparator")) ∧
    (DomainError.networkError
        "GitHub request failed: Invalid repository name: noseparator"
        (jsError "Invalid repository name: noseparator")).kind ≠
      DomainKind.configuration := by
  have honce : GitHubProvider.getRepoMetadataOnce "noseparator"
      (fun _ _ => Except.error {}) =
      (Except.error (DomainError.networkError
        "GitHub request failed: Invalid repository name: noseparator"
        (jsError "Invalid repository name: noseparator")), 0) := by
    unfold GitHubProvider.getRepoMetadataOnce
    rw [if_pos (by decide : (splitOwnerRepo "noseparator").1 = "" ∨
      (splitOwnerRepo "noseparator").2 = "")]
    rfl
  refine ⟨?_, ?_, by decide⟩
  · unfold GitHubProvider.getRepoMetadata
    rw [honce]
    simp
  · unfold GitHubProvider.getRepoMetadata
    rw [honce]
    simp only []
    exact withRetryGo_const_error _ 3 (fun _ => true) 1000 10000 true (fun _ => 0) 3 0

/-- C6 amended: for every repository identifier whose owner/namespace or
short-name component is missing, `getRepoMetadata` on the GitHub and
Bitbucket adapters fails before any network call (zero calls reach the
vendor capability), but with a Network-kind domain error (the guard throws a
plain `Error` which the platform mapper wraps as NetworkError), not a
Configuration-class error. -/
theorem c6_invalid_name_fails_before_network (repoFullName : String)
    (hmal : (splitOwnerRepo repoFullName).1 = "" ∨ (splitOwnerRepo repoFullName).2 = "")
    (reposGet : String → String → Except TransportErr GitHubRawRepo)
    (repositoriesGet : String → String → Except TransportErr BitbucketRawRepo)
    (rand : Nat → ℚ) :
    (GitHubProvider.getRepoMetadata repoFullName reposGet rand).2 = 0 ∧
    (GitHubProvider.getRepoMetadata repoFullName reposGet rand).1 =
      Except.error (mapGitHubError (jsError ("Invalid repository name: " ++ repoFullName))) ∧
    (mapGitHubError (jsError ("Invalid repository name: " ++ repoFullName))).kind =
      DomainKind.network ∧
    (BitbucketProvider.getRepoMetadata repoFullName repositoriesGet rand).2 = 0 ∧
    (BitbucketProvider.getRepoMetadata repoFullName repositoriesGet rand).1 =
      Except.error (mapBitbucketError (jsError ("Invalid repository name: " ++ repoFullName))) ∧
    (mapBitbucketError (jsError ("Invalid repository name: " ++ repoFullName))).kind =
      DomainKind.network := by
  have hgh : GitHubProvider.getRepoMetadataOnce repoFullName reposGet =
      (Except.error (mapGitHubError (jsError ("Invalid repository name: " ++ repoFullName))), 0) := by
    unfold GitHubProvider.getRepoMetadataOnce
    rw [if_pos hmal]
  have hbb : BitbucketProvider.getRepoMetadataOnce repoFullName repositoriesGet =
      (Except.error (mapBitbucketError (jsError ("Invalid repository name: " ++ repoFullName))), 0) := by
    unfold BitbucketProvider.getRepoMetadataOnce
    rw [if_pos hmal]
  refine ⟨?_, ?_, rfl, ?_, ?_, rfl⟩
  · unfold GitHubProvider.getRepoMetadata
    rw [hgh]
    simp
  · unfold GitHubProvider.getRepoMetadata
    rw [hgh]
    simp only []
    exact withRetryGo_const_error _ 3 (fun _ => true) 1000 10000 true rand 3 0
  · unfold BitbucketProvider.getRepoMetadata
    rw [hbb]
    simp
  · unfold BitbucketProvider.getRepoMetadata
    rw [hbb]
    simp only []
    exact withRetryGo_const_error _ 3 (fun _ => true) 1000 10000 true rand 3 0

/-- C6 witness: the malformed identifier `"noslash"` (no separator) on both
adapters, with capabilities that would succeed if ever called. -/
theorem c6_invalid_name_fails_before_network_witness :
    ((splitOwnerRepo "noslash").1 = "" ∨ (splitOwnerRepo "noslash").2 = "") ∧
    (GitHubProvider.getRepoMetadata "noslash" (fun _ _ => Except.error {}) (fun _ => 0)).2 = 0 ∧
    (BitbucketProvider.getRepoMetadata "noslash" (fun _ _ => Except.error {}) (fun _ => 0)).2 = 0 := by
  refine ⟨by decide, ?_, ?_⟩
  · exact (c6_invalid_name_fails_before_network "noslash" (by decide)
      (fun _ _ => Except.error {}) (fun _ _ => Except.error {}) (fun _ => 0)).1
  · exact (c6_invalid_name_fails_before_network "noslash" (by decide)
      (fun _ _ => Except.error {}) (fun _ _ => Except.error {}) (fun _ => 0)).2.2.2.1

/-- C7 counterexample: Bitbucket Cloud (default base URL) with no configured
workspace: `getUserRepos` fails fast, but the error kind is Network (the
guard message is a plain `Error` wrapped by `mapBitbucketError`), not the
Configuration kind the claim asserts. -/
theorem c7_counterexample :
    BitbucketProvider.getUserRepos {} none none (fun _ _ => []) (fun _ _ => [])
        (fun _ => []) =
      Except.error (mapBitbucketError (jsError bitbucketWorkspaceGuardMessage)) ∧
    (mapBitbucketError (jsError bitbucketWorkspaceGuardMessage)).kind ≠
      DomainKind.configuration := by
  refine ⟨?_, by decide⟩
  rfl

/-- C7 amended: on Bitbucket Cloud with no (or an empty) configured
workspace, `getUserRepos` fails fast with a domain error whose message
references workspace discovery (`listWorkspaces()`), mapped to the Network
kind by `mapBitbucketError` — it never returns a silently-empty result and
never guesses a workspace; the same call against a self-hosted (non-Cloud)
configuration succeeds using the global repository listing with no
workspace required. -/
theorem c7_bitbucket_workspace_guard (opts : BitbucketProviderOptions)
    (search : Option String) (options : Option PaginationOptions)
    (wsRepos projRepos : String → Option String → List BitbucketRawRepo)
    (globalRepos : Option String → List BitbucketRawRepo)
    (hcloud : BitbucketProvider.isBitbucketCloud opts = true)
    (hws : jsTruthyOpt opts.workspace = none)
    (optsSelf : BitbucketProviderOptions)
    (hself : BitbucketProvider.isBitbucketCloud optsSelf = false) :
    BitbucketProvider.getUserRepos opts search options wsRepos projRepos globalRepos =
      Except.error (mapBitbucketError (jsError bitbucketWorkspaceGuardMessage)) ∧
    (mapBitbucketError (jsError bitbucketWorkspaceGuardMessage)).kind = DomainKind.network ∧
    jsIncludes bitbucketWorkspaceGuardMessage "Use listWorkspaces() to discover" = true ∧
    (∀ l, BitbucketProvider.getUserRepos opts search options wsRepos projRepos globalRepos ≠
      Except.ok l) ∧
    BitbucketProvider.getUserRepos optsSelf search options wsRepos projRepos globalRepos =
      Except.ok (((globalRepos search).take
        (capMin (jsCap (optMaxItems options)) (globalRepos search).length)).map
          bitbucketRawToRepo) := by
  have hmain : BitbucketProvider.getUserRepos opts search options wsRepos projRepos globalRepos =
      Except.error (mapBitbucketError (jsError bitbucketWorkspaceGuardMessage)) := by
    unfold BitbucketProvider.getUserRepos
    rw [if_pos hcloud, hws]
  refine ⟨hmain, rfl, by decide, ?_, ?_⟩
  · intro l
    rw [hmain]
    simp
  · unfold BitbucketProvider.getUserRepos
    rw [if_neg (by simp [hself])]
    simp only []
    rw [bitbucketPaginate_capMin _ _ (one_le_effPerPage _ 50 100 (by omega) (by omega))]

/-- C7 witness: Cloud options with no workspace fail fast with the
discovery-referencing message; a self-hosted base URL succeeds globally. -/
theorem c7_bitbucket_workspace_guard_witness :
    BitbucketProvider.getUserRepos { baseUrl := some "https://api.bitbucket.org/2.0" } none none
        (fun _ _ => []) (fun _ _ => []) (fun _ => []) =
      Except.error (mapBitbucketError (jsError bitbucketWorkspaceGuardMessage)) ∧
    BitbucketProvider.getUserRepos { baseUrl := some "https://bitbucket.company.com" } none none
        (fun _ _ => []) (fun _ _ => []) (fun _ => []) =
      Except.ok [] := by
  have h := c7_bitbucket_workspace_guard { baseUrl := some "https://api.bitbucket.org/2.0" }
    none none (fun _ _ => []) (fun _ _ => []) (fun _ => []) (by decide) rfl
    { baseUrl := some "https://bitbucket.company.com" } (by decide)
  exact ⟨h.1, by simpa using h.2.2.2.2⟩

/-- C1: for every modelled paginated operation and caller-specified
`maxItems = N` (N ≥ 1; `maxItems = 0` is falsy and means unbounded, see
C10), the returned list's length is exactly `min N A` where `A` is the
number of items the platform serves for the query — the per-item cap check
means the bound holds even when the cap falls mid-page. -/
theorem c1_pagination_cap (N : Nat) (hN : 0 < N) (pp : Option Nat)
    (search : Option String)
    (projectsAll : Option String → List GitLabProject)
    (groupsAll : List GitLabGroup)
    (allProjects : String → Option String → List GitLabProject)
    (glBranches glTags : String → List NamedRef)
    (organizationName repoFullName : String)
    (ghRepos : List GitHubRawRepo)
    (ghBranches ghTags : String → String → List NamedRef)
    (ghFullName : String)
    (hgh1 : (splitOwnerRepo ghFullName).1 ≠ "") (hgh2 : (splitOwnerRepo ghFullName).2 ≠ "")
    (bbOpts : BitbucketProviderOptions) (bbWs : String)
    (hbbCloud : BitbucketProvider.isBitbucketCloud bbOpts = true)
    (hbbWs : jsTruthyOpt bbOpts.workspace = some bbWs)
    (bbSelfOpts : BitbucketProviderOptions)
    (hbbSelf : BitbucketProvider.isBitbucketCloud bbSelfOpts = false)
    (wsRepos projRepos : String → Option String → List BitbucketRawRepo)
    (globalRepos : Option String → List BitbucketRawRepo)
    (bbWorkspaces : List BitbucketWorkspace) (bbProjects : List BitbucketProject)
    (bbBranches : String → String → List NamedRef)
    (bbFullName : String)
    (hbb1 : (splitOwnerRepo bbFullName).1 ≠ "") (hbb2 : (splitOwnerRepo bbFullName).2 ≠ "") :
    (GitLabProvider.getUserRepos search (some ⟨pp, some N⟩) projectsAll).length =
      min N (projectsAll search).length ∧
    (GitLabProvider.getOrganizations (some ⟨pp, some N⟩) groupsAll).length =
      min N groupsAll.length ∧
    (GitLabProvider.getOrganizationRepos organizationName search (some ⟨pp, some N⟩)
        allProjects).length = min N (allProjects organizationName search).length ∧
    (GitLabProvider.getRepoBranches repoFullName (some ⟨pp, some N⟩) glBranches).length =
      min N (glBranches repoFullName).length ∧
    (GitLabProvider.getRepoTags repoFullName (some ⟨pp, some N⟩) glTags).length =
      min N (glTags repoFullName).length ∧
    (GitHubProvider.getUserRepos none (some ⟨pp, some N⟩) ghRepos).length =
      min N ghRepos.length ∧
    (∃ l, GitHubProvider.getRepoBranches ghFullName (some ⟨pp, some N⟩) ghBranches =
        Except.ok l ∧
      l.length = min N
        (ghBranches (splitOwnerRepo ghFullName).1 (splitOwnerRepo ghFullName).2).length) ∧
    (∃ l, GitHubProvider.getRepoTags ghFullName (some ⟨pp, some N⟩) ghTags = Except.ok l ∧
      l.length = min N
        (ghTags (splitOwnerRepo ghFullName).1 (splitOwnerRepo ghFullName).2).length) ∧
    (∃ l, BitbucketProvider.getUserRepos bbOpts search (some ⟨pp, some N⟩) wsRepos projRepos
        globalRepos = Except.ok l ∧
      l.length = min N (wsRepos bbWs search).length) ∧
    (∃ l, BitbucketProvider.getUserRepos bbSelfOpts search (some ⟨pp, some N⟩) wsRepos projRepos
        globalRepos = Except.ok l ∧
      l.length = min N (globalRepos search).length) ∧
    (BitbucketProvider.getOrganizations bbOpts (some ⟨pp, some N⟩) bbWorkspaces
        bbProjects).length = min N bbWorkspaces.length ∧
    (BitbucketProvider.getOrganizationRepos bbOpts organizationName search (some ⟨pp, some N⟩)
        wsRepos projRepos).length = min N (wsRepos organizationName search).length ∧
    (∃ l, BitbucketProvider.getRepoBranches bbFullName (some ⟨pp, some N⟩) bbBranches =
        Except.ok l ∧
      l.length = min N
        (bbBranches (splitOwnerRepo bbFullName).1 (splitOwnerRepo bbFullName).2).length) := by
  have hcap : jsCap (optMaxItems (some (PaginationOptions.mk pp (some N)))) = some N :=
    jsCap_some_pos N hN
  have hgl : 1 ≤ min (jsOrNat (optPerPage (some (PaginationOptions.mk pp (some N)))) 100) 100 :=
    one_le_effPerPage _ 100 100 (by omega) (by omega)
  have hbbp : 1 ≤ min (jsOrNat (optPerPage (some (PaginationOptions.mk pp (some N)))) 50) 100 :=
    one_le_effPerPage _ 50 100 (by omega) (by omega)
  refine ⟨?_, ?_, ?_, ?_, ?_, ?_, ?_, ?_, ?_, ?_, ?_, ?_, ?_⟩
  · unfold GitLabProvider.getUserRepos
    simp only []
    rw [hcap, gitlabPaginate_capMin _ _ hgl]
    exact capMin_some_take_map_length _ N _
  · unfold GitLabProvider.getOrganizations
    simp only []
    rw [hcap, gitlabPaginate_capMin _ _ hgl]
    exact capMin_some_take_map_length _ N _
  · unfold GitLabProvider.getOrganizationRepos
    simp only []
    rw [hcap, gitlabPaginate_capMin _ _ hgl]
    exact capMin_some_take_map_length _ N _
  · unfold GitLabProvider.getRepoBranches
    simp only []
    rw [hcap, gitlabPaginate_capMin _ _ hgl]
    exact capMin_some_take_map_length _ N _
  · unfold GitLabProvider.getRepoTags
    simp only []
    rw [hcap, gitlabPaginate_capMin _ _ hgl]
    exact capMin_some_take_map_length _ N _
  · unfold GitHubProvider.getUserRepos
    simp only []
    rw [hcap, githubPaginate_capMin _ _ _ hgl]
    have hfilt : ghRepos.filter (githubKeep none) = ghRepos :=
      List.filter_eq_self.mpr (fun a _ => rfl)
    rw [hfilt]
    exact capMin_some_take_map_length _ N _
  · unfold GitHubProvider.getRepoBranches
    rw [if_neg (by push_neg; exact ⟨hgh1, hgh2⟩)]
    simp only []
    rw [hcap, githubPaginate_capMin _ _ _ hgl]
    refine ⟨_, rfl, ?_⟩
    have hfilt : (ghBranches (splitOwnerRepo ghFullName).1
        (splitOwnerRepo ghFullName).2).filter (fun _ => true) =
        ghBranches (splitOwnerRepo ghFullName).1 (splitOwnerRepo ghFullName).2 :=
      List.filter_eq_self.mpr (fun a _ => rfl)
    rw [hfilt]
    exact capMin_some_take_map_length _ N _
  · unfold GitHubProvider.getRepoTags
    rw [if_neg (by push_neg; exact ⟨hgh1, hgh2⟩)]
    simp only []
    rw [hcap, githubPaginate_capMin _ _ _ hgl]
    refine ⟨_, rfl, ?_⟩
    have hfilt : (ghTags (splitOwnerRepo ghFullName).1
        (splitOwnerRepo ghFullName).2).filter (fun _ => true) =
        ghTags (splitOwnerRepo ghFullName).1 (splitOwnerRepo ghFullName).2 :=
      List.filter_eq_self.mpr (fun a _ => rfl)
    rw [hfilt]
    exact capMin_some_take_map_length _ N _
  · unfold BitbucketProvider.getUserRepos BitbucketProvider.getOrganizationRepos
    rw [if_pos hbbCloud, hbbWs]
    simp only []
    rw [if_pos hbbCloud, hcap, bitbucketPaginate_capMin _ _ hbbp]
    exact ⟨_, rfl, capMin_some_take_map_length _ N _⟩
  · unfold BitbucketProvider.getUserRepos
    rw [if_neg (by simp [hbbSelf])]
    simp only []
    rw [hcap, bitbucketPaginate_capMin _ _ hbbp]
    exact ⟨_, rfl, capMin_some_take_map_length _ N _⟩
  · unfold BitbucketProvider.getOrganizations
    simp only []
    rw [if_pos hbbCloud, hcap, bitbucketPaginate_capMin _ _ hbbp]
    exact capMin_some_take_map_length _ N _
  · unfold BitbucketProvider.getOrganizationRepos
    simp only []
    rw [if_pos hbbCloud, hcap, bitbucketPaginate_capMin _ _ hbbp]
    exact capMin_some_take_map_length _ N _
  · unfold BitbucketProvider.getRepoBranches
    rw [if_neg (by push_neg; exact ⟨hbb1, hbb2⟩)]
    simp only []
    rw [hcap, bitbucketPaginate_capMin _ _ hbbp]
    exact ⟨_, rfl, capMin_some_take_map_length _ N _⟩

/-- C1 witness: three available projects, `maxItems = 2` (cap falls
mid-page) — the result has exactly `min 2 3 = 2` entries. -/
theorem c1_pagination_cap_witness :
    0 < 2 ∧
    (GitLabProvider.getUserRepos none (some ⟨none, some 2⟩) (fun _ =>
      [{ id := 1, name := "a", path_with_namespace := "g/a", visibility := "public", web_url := "u1" },
       { id := 2, name := "b", path_with_namespace := "g/b", visibility := "private", web_url := "u2" },
       { id := 3, name := "c", path_with_namespace := "g/c", visibility := "public", web_url := "u3" }])).length =
      min 2 ([{ id := 1, name := "a", path_with_namespace := "g/a", visibility := "public", web_url := "u1" },
       { id := 2, name := "b", path_with_namespace := "g/b", visibility := "private", web_url := "u2" },
       { id := 3, name := "c", path_with_namespace := "g/c", visibility := "public", web_url := "u3" }] : List GitLabProject).length :=
  ⟨by decide,
    (c1_pagination_cap 2 (by decide) none none
      (fun _ =>
        [{ id := 1, name := "a", path_with_namespace := "g/a", visibility := "public", web_url := "u1" },
         { id := 2, name := "b", path_with_namespace := "g/b", visibility := "private", web_url := "u2" },
         { id := 3, name := "c", path_with_namespace := "g/c", visibility := "public", web_url := "u3" }])
      [] (fun _ _ => []) (fun _ => []) (fun _ => []) "org" "g/r"
      [] (fun _ _ => []) (fun _ _ => []) "o/r" (by decide) (by decide)
      { workspace := some "ws" } "ws" (by decide) rfl
      { baseUrl := some "https://git.company.com" } (by decide)
      (fun _ _ => []) (fun _ _ => []) (fun _ => []) [] [] (fun _ _ => [])
      "w/s" (by decide) (by decide)).1⟩

/-- C9 counterexample: the platform serves one repository on the page, the
caller passes search `"zzz"`, and the cap is unbounded — yet GitHub's
`getUserRepos` returns an empty list: the fetched page item was re-filtered
client-side (the request itself carries no search parameter), contradicting
the claim that every platform-returned item is appended subject only to the
cap. -/
theorem c9_counterexample :
    GitHubProvider.getUserRepos (some "zzz") none
      [{ id := 1, name := "alpha", full_name := "owner/alpha", default_branch := "main", private_ := false, html_url := "u" }] = [] ∧
    ([{ id := 1, name := "alpha", full_name := "owner/alpha", default_branch := "main", private_ := false, html_url := "u" }] : List GitHubRawRepo).length = 1 := by
  constructor
  · show githubPaginate 100 none (githubKeep (some "zzz")) githubRawToRepo []
      [{ id := 1, name := "alpha", full_name := "owner/alpha", default_branch := "main", private_ := false, html_url := "u" }] = []
    rw [githubPaginate_none _ _ 100 (by omega)]
    decide
  · rfl

/-- C9 amended: GitLab and Bitbucket pass the search term through to the
platform's list endpoint and append every item the platform returns, up to
the cap, with no client-side re-filtering; GitHub's `getUserRepos`, by
contrast, does not send the search term to the endpoint at all and instead
filters fetched items client-side by substring match on `full_name`/`name`
(`githubKeep`). -/
theorem c9_search_passthrough (search : Option String) (options : Option PaginationOptions)
    (projectsAll : Option String → List GitLabProject)
    (bbOpts : BitbucketProviderOptions)
    (hcloud : BitbucketProvider.isBitbucketCloud bbOpts = true)
    (orgName : String)
    (wsRepos projRepos : String → Option String → List BitbucketRawRepo)
    (ghList : List GitHubRawRepo) :
    GitLabProvider.getUserRepos search options projectsAll =
      ((projectsAll search).take
        (capMin (jsCap (optMaxItems options)) (projectsAll search).length)).map
        gitlabProjectToRepo ∧
    BitbucketProvider.getOrganizationRepos bbOpts orgName search options wsRepos projRepos =
      ((wsRepos orgName search).take
        (capMin (jsCap (optMaxItems options)) (wsRepos orgName search).length)).map
        bitbucketRawToRepo ∧
    GitHubProvider.getUserRepos search options ghList =
      ((ghList.filter (githubKeep search)).take
        (capMin (jsCap (optMaxItems options)) (ghList.filter (githubKeep search)).length)).map
        githubRawToRepo := by
  refine ⟨?_, ?_, ?_⟩
  · unfold GitLabProvider.getUserRepos
    simp only []
    rw [gitlabPaginate_capMin _ _ (one_le_effPerPage _ 100 100 (by omega) (by omega))]
  · unfold BitbucketProvider.getOrganizationRepos
    simp only []
    rw [if_pos hcloud,
      bitbucketPaginate_capMin _ _ (one_le_effPerPage _ 50 100 (by omega) (by omega))]
  · unfold GitHubProvider.getUserRepos
    simp only []
    rw [githubPaginate_capMin _ _ _ (one_le_effPerPage _ 100 100 (by omega) (by omega))]

/-- C9 witness: concrete Cloud options and a one-project platform response;
the GitLab result equals the platform's (already server-filtered) page
mapped, with no client filtering. -/
theorem c9_search_passthrough_witness :
    GitLabProvider.getUserRepos (some "alp") none (fun _ =>
      [{ id := 1, name := "alpha", path_with_namespace := "g/alpha", visibility := "public", web_url := "u" }]) =
      (([{ id := 1, name := "alpha", path_with_namespace := "g/alpha", visibility := "public", web_url := "u" }] : List GitLabProject).take
        (capMin (jsCap (optMaxItems none))
          ([{ id := 1, name := "alpha", path_with_namespace := "g/alpha", visibility := "public", web_url := "u" }] : List GitLabProject).length)).map
        gitlabProjectToRepo :=
  (c9_search_passthrough (some "alp") none
    (fun _ =>
      [{ id := 1, name := "alpha", path_with_namespace := "g/alpha", visibility := "public", web_url := "u" }])
    { workspace := some "ws" } (by decide) "org" (fun _ _ => []) (fun _ _ => []) []).1

/-- C10: a caller-specified `maxItems = 0` (falsy in JS) is coalesced to
`Infinity` by `options?.maxItems || Infinity`, so the operation returns all
available items rather than an empty list — identical to passing no
options; likewise `perPage = 0` is falsy and replaced by the provider
default page size (100 for GitLab, 50 for Bitbucket) rather than requesting
zero-item pages. -/
theorem c10_falsy_zero_options (search : Option String) (pp : Option Nat)
    (projectsAll : Option String → List GitLabProject)
    (bbSelfOpts : BitbucketProviderOptions)
    (hself : BitbucketProvider.isBitbucketCloud bbSelfOpts = false)
    (wsRepos projRepos : String → Option String → List BitbucketRawRepo)
    (globalRepos : Option String → List BitbucketRawRepo) :
    GitLabProvider.getUserRepos search (some ⟨pp, some 0⟩) projectsAll =
      (projectsAll search).map gitlabProjectToRepo ∧
    GitLabProvider.getUserRepos search (some ⟨pp, some 0⟩) projectsAll =
      GitLabProvider.getUserRepos search none projectsAll ∧
    BitbucketProvider.getUserRepos bbSelfOpts search (some ⟨pp, some 0⟩) wsRepos projRepos
        globalRepos = Except.ok ((globalRepos search).map bitbucketRawToRepo) ∧
    min (jsOrNat (some 0) 100) 100 = 100 ∧
    min (jsOrNat (some 0) 50) 100 = 50 := by
  have h1 : GitLabProvider.getUserRepos search (some ⟨pp, some 0⟩) projectsAll =
      (projectsAll search).map gitlabProjectToRepo := by
    unfold GitLabProvider.getUserRepos
    simp only []
    rw [gitlabPaginate_capMin _ _ (one_le_effPerPage _ 100 100 (by omega) (by omega))]
    rw [show jsCap (optMaxItems (some (PaginationOptions.mk pp (some 0)))) = none from rfl]
    simp [capMin]
  refine ⟨h1, ?_, ?_, by decide, by decide⟩
  · rw [h1]
    unfold GitLabProvider.getUserRepos
    simp only []
    rw [gitlabPaginate_capMin _ _ (one_le_effPerPage _ 100 100 (by omega) (by omega))]
    rw [show jsCap (optMaxItems (none : Option PaginationOptions)) = none from rfl]
    simp [capMin]
  · unfold BitbucketProvider.getUserRepos
    rw [if_neg (by simp [hself])]
    simp only []
    rw [bitbucketPaginate_capMin _ _ (one_le_effPerPage _ 50 100 (by omega) (by omega))]
    rw [show jsCap (optMaxItems (some (PaginationOptions.mk pp (some 0)))) = none from rfl]
    simp [capMin]

/-- C10 witness: `maxItems = 0` and `perPage = 0` against a two-project
platform return both available items (not zero). -/
theorem c10_falsy_zero_options_witness :
    GitLabProvider.getUserRepos none (some ⟨some 0, some 0⟩) (fun _ =>
      [{ id := 1, name := "a", path_with_namespace := "g/a", visibility := "public", web_url := "u1" },
       { id := 2, name := "b", path_with_namespace := "g/b", visibility := "private", web_url := "u2" }]) =
      ([{ id := 1, name := "a", path_with_namespace := "g/a", visibility := "public", web_url := "u1" },
       { id := 2, name := "b", path_with_namespace := "g/b", visibility := "private", web_url := "u2" }] : List GitLabProject).map gitlabProjectToRepo :=
  (c10_falsy_zero_options none (some 0)
    (fun _ =>
      [{ id := 1, name := "a", path_with_namespace := "g/a", visibility := "public", web_url := "u1" },
       { id := 2, name := "b", path_with_namespace := "g/b", visibility := "private", web_url := "u2" }])
    { baseUrl := some "https://git.company.com" } (by decide)
    (fun _ _ => []) (fun _ _ => []) (fun _ => [])).1

end UniGit
